import Mathlib

/-!
# Verification of the solflow stream-processing engine

Shallow embedding of the solflow sources (`state.rs`, `signals.rs`,
`trade_extractor.rs`, `processor.rs`, `db.rs`) in Lean 4, together with
theorems settling the specification claims about them.

Modelling conventions:
* Rust `f64` amounts are modelled as `ℚ` (the claims are about exact
  arithmetic relationships, not rounding).
* Rust `i64` / `i32` are modelled as `Int`; overflow is unreachable for the
  quantities involved.
* `Vec` and `VecDeque` become `List` (push/push_back append at the tail,
  the deque front is the list head).
* `HashSet<String>` becomes `Finset String`; `HashMap` becomes an
  association list (iteration order of a Rust `HashMap` is irrelevant to
  every claim except for tie-breaking in a sort, noted where it matters).
* The ambient wall clock (`chrono::Utc::now()`) is passed as an explicit
  parameter wherever the source reads it.
-/

/-- `TradeDirection` from `types.rs`. -/
inductive TradeDirection where
  | Buy
  | Sell
  | Unknown
deriving DecidableEq

/-- `TradeEvent` from `types.rs` (the ten-field shape used throughout
`state.rs`, `trade_extractor.rs`, `db.rs` and `signals.rs`). -/
structure TradeEvent where
  timestamp : Int
  mint : String
  direction : TradeDirection
  sol_amount : ℚ
  token_amount : ℚ
  token_decimals : Nat
  user_account : String
  source_program : String
  is_bot : Bool
  is_dca : Bool
deriving DecidableEq

/-- `RollingMetrics` from `state.rs`. -/
structure RollingMetrics where
  net_flow_60s_sol : ℚ
  net_flow_300s_sol : ℚ
  net_flow_900s_sol : ℚ
  net_flow_3600s_sol : ℚ
  net_flow_7200s_sol : ℚ
  net_flow_14400s_sol : ℚ
  buy_count_60s : Int
  sell_count_60s : Int
  buy_count_300s : Int
  sell_count_300s : Int
  buy_count_900s : Int
  sell_count_900s : Int
  unique_wallets_300s : Int
  bot_wallets_count_300s : Int
  bot_trades_count_300s : Int
  bot_flow_300s_sol : ℚ
  dca_buys_60s : Int
  dca_buys_300s : Int
  dca_buys_900s : Int
  dca_buys_3600s : Int
  dca_buys_14400s : Int
  dca_flow_300s_sol : ℚ
  dca_unique_wallets_300s : Int
  dca_ratio_300s : ℚ
deriving DecidableEq

/-- `TokenRollingState` from `state.rs`.  The five DCA deques store only
timestamps; there is no 7200s DCA deque, exactly as in the source. -/
structure TokenRollingState where
  mint : String
  last_seen_ts : Int
  trades_60s : List TradeEvent
  trades_300s : List TradeEvent
  trades_900s : List TradeEvent
  trades_3600s : List TradeEvent
  trades_7200s : List TradeEvent
  trades_14400s : List TradeEvent
  unique_wallets_300s : Finset String
  bot_wallets_300s : Finset String
  wallet_activity_60s : List (String × Int × Int)
  trades_by_program : List (String × List TradeEvent)
  dca_timestamps_60s : List Int
  dca_timestamps_300s : List Int
  dca_timestamps_900s : List Int
  dca_timestamps_3600s : List Int
  dca_timestamps_14400s : List Int

/-- `TokenRollingState::new` (capacity hints are irrelevant to semantics). -/
def TokenRollingState.new (mint : String) : TokenRollingState where
  mint := mint
  last_seen_ts := 0
  trades_60s := []
  trades_300s := []
  trades_900s := []
  trades_3600s := []
  trades_7200s := []
  trades_14400s := []
  unique_wallets_300s := ∅
  bot_wallets_300s := ∅
  wallet_activity_60s := []
  trades_by_program := []
  dca_timestamps_60s := []
  dca_timestamps_300s := []
  dca_timestamps_900s := []
  dca_timestamps_3600s := []
  dca_timestamps_14400s := []

/-- Lookup in the `wallet_activity_60s` association list
(`HashMap<String, (i32, i64)>`). -/
def lookupActivity (w : String) : List (String × Int × Int) → Option (Int × Int)
  | [] => none
  | (w', c, ts) :: rest => if w' = w then some (c, ts) else lookupActivity w rest

/-- The `entry(..).or_insert((0, ts)); entry.0 += 1; entry.1 = ts` update of
`wallet_activity_60s` in `add_trade`. -/
def updateActivity (w : String) (ts : Int) :
    List (String × Int × Int) → List (String × Int × Int)
  | [] => [(w, 1, ts)]
  | (w', c, ts') :: rest =>
    if w' = w then (w', c + 1, ts) :: rest
    else (w', c, ts') :: updateActivity w ts rest

/-- `entry(trade.source_program).or_default().push(trade)` on
`trades_by_program`. -/
def pushProgram (p : String) (t : TradeEvent) :
    List (String × List TradeEvent) → List (String × List TradeEvent)
  | [] => [(p, [t])]
  | (q, l) :: rest =>
    if q = p then (q, l ++ [t]) :: rest else (q, l) :: pushProgram p t rest

/-- `TokenRollingState::BOT_TRADE_THRESHOLD`. -/
def botTradeThreshold : Int := 3

/-- The wallet's current trade count in `wallet_activity_60s` (0 if absent). -/
def TokenRollingState.activityCount (s : TokenRollingState) (w : String) : Int :=
  ((lookupActivity w s.wallet_activity_60s).map Prod.fst).getD 0

/-- The trade value actually pushed into the window buffers by `add_trade`:
the incoming trade, with `is_bot` forced to `true` when the wallet's updated
60s activity count reaches the bot threshold. -/
def TokenRollingState.storedTrade (s : TokenRollingState) (t : TradeEvent) :
    TradeEvent :=
  if botTradeThreshold ≤ s.activityCount t.user_account + 1 then
    { t with is_bot := true }
  else t

/-- `TokenRollingState::add_trade` from `state.rs`. -/
def TokenRollingState.add_trade (s : TokenRollingState) (t : TradeEvent) :
    TokenRollingState :=
  let w := t.user_account
  let stored := s.storedTrade t
  let dcaPush := t.source_program = "JupiterDCA" ∧ t.direction = TradeDirection.Buy
  { mint := s.mint
    last_seen_ts := t.timestamp
    trades_60s := s.trades_60s ++ [stored]
    trades_300s := s.trades_300s ++ [stored]
    trades_900s := s.trades_900s ++ [stored]
    trades_3600s := s.trades_3600s ++ [stored]
    trades_7200s := s.trades_7200s ++ [stored]
    trades_14400s := s.trades_14400s ++ [stored]
    unique_wallets_300s := insert w s.unique_wallets_300s
    bot_wallets_300s :=
      if botTradeThreshold ≤ s.activityCount w + 1 then
        insert w s.bot_wallets_300s
      else s.bot_wallets_300s
    wallet_activity_60s := updateActivity w t.timestamp s.wallet_activity_60s
    trades_by_program := pushProgram t.source_program stored s.trades_by_program
    dca_timestamps_60s :=
      if dcaPush then s.dca_timestamps_60s ++ [t.timestamp]
      else s.dca_timestamps_60s
    dca_timestamps_300s :=
      if dcaPush then s.dca_timestamps_300s ++ [t.timestamp]
      else s.dca_timestamps_300s
    dca_timestamps_900s :=
      if dcaPush then s.dca_timestamps_900s ++ [t.timestamp]
      else s.dca_timestamps_900s
    dca_timestamps_3600s :=
      if dcaPush then s.dca_timestamps_3600s ++ [t.timestamp]
      else s.dca_timestamps_3600s
    dca_timestamps_14400s :=
      if dcaPush then s.dca_timestamps_14400s ++ [t.timestamp]
      else s.dca_timestamps_14400s }

/-- `TokenRollingState::evict_old_trades` from `state.rs`.  `retain`
becomes `List.filter`; the front-pruning loop on each DCA deque becomes
`List.dropWhile`; `unique_wallets_300s` is rebuilt from the surviving 300s
trades and `bot_wallets_300s` is cleared. -/
def TokenRollingState.evict_old_trades (s : TokenRollingState) (now : Int) :
    TokenRollingState :=
  let cutoff_60s := now - 60
  let cutoff_300s := now - 300
  let cutoff_900s := now - 900
  let cutoff_3600s := now - 3600
  let cutoff_7200s := now - 7200
  let cutoff_14400s := now - 14400
  let t300 := s.trades_300s.filter (fun t => decide (cutoff_300s ≤ t.timestamp))
  { mint := s.mint
    last_seen_ts := s.last_seen_ts
    trades_60s := s.trades_60s.filter (fun t => decide (cutoff_60s ≤ t.timestamp))
    trades_300s := t300
    trades_900s := s.trades_900s.filter (fun t => decide (cutoff_900s ≤ t.timestamp))
    trades_3600s := s.trades_3600s.filter (fun t => decide (cutoff_3600s ≤ t.timestamp))
    trades_7200s := s.trades_7200s.filter (fun t => decide (cutoff_7200s ≤ t.timestamp))
    trades_14400s := s.trades_14400s.filter (fun t => decide (cutoff_14400s ≤ t.timestamp))
    unique_wallets_300s := t300.foldl (fun acc t => insert t.user_account acc) ∅
    bot_wallets_300s := ∅
    wallet_activity_60s :=
      s.wallet_activity_60s.filter (fun e => decide (cutoff_60s ≤ e.2.2))
    trades_by_program :=
      s.trades_by_program.map
        (fun pl => (pl.1, pl.2.filter (fun t => decide (cutoff_14400s ≤ t.timestamp))))
    dca_timestamps_60s :=
      s.dca_timestamps_60s.dropWhile (fun ts => decide (ts < cutoff_60s))
    dca_timestamps_300s :=
      s.dca_timestamps_300s.dropWhile (fun ts => decide (ts < cutoff_300s))
    dca_timestamps_900s :=
      s.dca_timestamps_900s.dropWhile (fun ts => decide (ts < cutoff_900s))
    dca_timestamps_3600s :=
      s.dca_timestamps_3600s.dropWhile (fun ts => decide (ts < cutoff_3600s))
    dca_timestamps_14400s :=
      s.dca_timestamps_14400s.dropWhile (fun ts => decide (ts < cutoff_14400s)) }

/-- One iteration of the inner `compute_window_metrics` loop of
`compute_rolling_metrics`: accumulate `(net_flow, buy_count, sell_count)`
by direction. -/
def cwmStep (acc : ℚ × Int × Int) (t : TradeEvent) : ℚ × Int × Int :=
  match t.direction with
  | TradeDirection.Buy => (acc.1 + t.sol_amount, acc.2.1 + 1, acc.2.2)
  | TradeDirection.Sell => (acc.1 - t.sol_amount, acc.2.1, acc.2.2 + 1)
  | TradeDirection.Unknown => acc

/-- The inner `compute_window_metrics` accumulation loop of
`compute_rolling_metrics` (single left-to-right pass, as in the source). -/
def computeWindowMetrics (trades : List TradeEvent) : ℚ × Int × Int :=
  trades.foldl cwmStep (0, 0, 0)

/-- One iteration of the bot-metrics loop of `compute_rolling_metrics`. -/
def botStep (acc : Int × ℚ) (t : TradeEvent) : Int × ℚ :=
  if t.is_bot then
    (acc.1 + 1,
      match t.direction with
      | TradeDirection.Buy => acc.2 + t.sol_amount
      | TradeDirection.Sell => acc.2 - t.sol_amount
      | TradeDirection.Unknown => acc.2)
  else acc

/-- The bot-metrics loop of `compute_rolling_metrics` over the 300s window. -/
def computeBotMetrics (trades : List TradeEvent) : Int × ℚ :=
  trades.foldl botStep (0, 0)

/-- The DCA-metrics loop of `compute_rolling_metrics` over the 300s window. -/
def computeDcaMetrics (trades : List TradeEvent) : ℚ × Finset String :=
  trades.foldl
    (fun acc t =>
      if t.is_dca then
        ((match t.direction with
          | TradeDirection.Buy => acc.1 + t.sol_amount
          | TradeDirection.Sell => acc.1 - t.sol_amount
          | TradeDirection.Unknown => acc.1),
          insert t.user_account acc.2)
      else acc)
    (0, ∅)

/-- `TokenRollingState::compute_rolling_metrics` from `state.rs`. -/
def TokenRollingState.compute_rolling_metrics (s : TokenRollingState) :
    RollingMetrics :=
  let m60 := computeWindowMetrics s.trades_60s
  let m300 := computeWindowMetrics s.trades_300s
  let m900 := computeWindowMetrics s.trades_900s
  let m3600 := computeWindowMetrics s.trades_3600s
  let m7200 := computeWindowMetrics s.trades_7200s
  let m14400 := computeWindowMetrics s.trades_14400s
  let bot := computeBotMetrics s.trades_300s
  let dca := computeDcaMetrics s.trades_300s
  let dca_ratio := if 0 < |m300.1| then dca.1 / m300.1 else 0
  { net_flow_60s_sol := m60.1
    net_flow_300s_sol := m300.1
    net_flow_900s_sol := m900.1
    net_flow_3600s_sol := m3600.1
    net_flow_7200s_sol := m7200.1
    net_flow_14400s_sol := m14400.1
    buy_count_60s := m60.2.1
    sell_count_60s := m60.2.2
    buy_count_300s := m300.2.1
    sell_count_300s := m300.2.2
    buy_count_900s := m900.2.1
    sell_count_900s := m900.2.2
    unique_wallets_300s := (s.unique_wallets_300s.card : Int)
    bot_wallets_count_300s := (s.bot_wallets_300s.card : Int)
    bot_trades_count_300s := bot.1
    bot_flow_300s_sol := bot.2
    dca_buys_60s := (s.dca_timestamps_60s.length : Int)
    dca_buys_300s := (s.dca_timestamps_300s.length : Int)
    dca_buys_900s := (s.dca_timestamps_900s.length : Int)
    dca_buys_3600s := (s.dca_timestamps_3600s.length : Int)
    dca_buys_14400s := (s.dca_timestamps_14400s.length : Int)
    dca_flow_300s_sol := dca.1
    dca_unique_wallets_300s := (dca.2.card : Int)
    dca_ratio_300s := dca_ratio }

/-- Rebuilding `unique_wallets_300s` by folding insertions over a trade list
is the set of wallet addresses of that list. -/
lemma foldl_insert_wallets (l : List TradeEvent) (acc : Finset String) :
    l.foldl (fun a t => insert t.user_account a) acc =
      acc ∪ (l.map (fun t => t.user_account)).toFinset := by
  induction l generalizing acc with
  | nil => simp
  | cons t rest ih =>
    simp only [List.foldl_cons, ih, List.map_cons, List.toFinset_cons]
    rw [Finset.union_insert, Finset.insert_union]

/-- C4: for every `TokenRollingState`, every eviction time `now`, and every
window `W ∈ \x7b60, 300, 900, 3600, 7200, 14400\x7d`, immediately after
`evict_old_trades(now)` every trade remaining in the `W`-second sequence has
`timestamp ≥ now − W`. -/
theorem claim_C4 (s : TokenRollingState) (now : Int) :
    (∀ t ∈ (s.evict_old_trades now).trades_60s, now - 60 ≤ t.timestamp) ∧
    (∀ t ∈ (s.evict_old_trades now).trades_300s, now - 300 ≤ t.timestamp) ∧
    (∀ t ∈ (s.evict_old_trades now).trades_900s, now - 900 ≤ t.timestamp) ∧
    (∀ t ∈ (s.evict_old_trades now).trades_3600s, now - 3600 ≤ t.timestamp) ∧
    (∀ t ∈ (s.evict_old_trades now).trades_7200s, now - 7200 ≤ t.timestamp) ∧
    (∀ t ∈ (s.evict_old_trades now).trades_14400s, now - 14400 ≤ t.timestamp) := by
  refine ⟨?_, ?_, ?_, ?_, ?_, ?_⟩ <;>
    · intro t ht
      simp only [TokenRollingState.evict_old_trades, List.mem_filter,
        decide_eq_true_eq] at ht
      exact ht.2

/-- Concrete instantiation of `claim_C4`: a single trade at `t = 1000`
surviving eviction at `now = 1010` satisfies the 60s bound. -/
theorem claim_C4_witness :
    (1010 : Int) - 60 ≤
      (⟨1000, "m", TradeDirection.Buy, 2, 100, 6, "w", "PumpSwap", false,
        false⟩ : TradeEvent).timestamp :=
  (claim_C4 ((TokenRollingState.new "m").add_trade
      ⟨1000, "m", TradeDirection.Buy, 2, 100, 6, "w", "PumpSwap", false, false⟩)
      1010).1
    ⟨1000, "m", TradeDirection.Buy, 2, 100, 6, "w", "PumpSwap", false, false⟩
    (by decide)

/-- C7: after every `(add_trade; evict_old_trades)` pair,
`unique_wallets_300s` equals exactly the set of `user_account` values of the
trades in the 300-second sequence. -/
theorem claim_C7 (s : TokenRollingState) (t : TradeEvent) (now : Int) :
    ((s.add_trade t).evict_old_trades now).unique_wallets_300s =
      (((s.add_trade t).evict_old_trades now).trades_300s.map
        (fun tr => tr.user_account)).toFinset := by
  simp only [TokenRollingState.evict_old_trades, foldl_insert_wallets,
    Finset.empty_union]

/-- `SignalType` from `signals.rs`. -/
inductive SignalType where
  | Breakout
  | Reaccumulation
  | FocusedBuyers
  | Persistence
  | FlowReversal
  | Focused
  | Surge
  | BotDropoff
  | DcaConviction
deriving DecidableEq

/-- `Signal` from `signals.rs`.  Every `json!` metadata object built by the
signal evaluators is a flat object whose values are numbers, so `metadata`
is modelled as an association list of numeric fields. -/
structure Signal where
  mint : String
  signal_type : SignalType
  strength : ℚ
  window : String
  timestamp : Int
  metadata : List (String × ℚ)
deriving DecidableEq

/-- Rust `f64::clamp(lo, hi)`. -/
def fclamp (x lo hi : ℚ) : ℚ := if x < lo then lo else if hi < x then hi else x

/-- `Signal::new` from `signals.rs`: clamps `strength` into `[0, 1]`. -/
def Signal.new (mint : String) (signal_type : SignalType) (strength : ℚ)
    (window : String) (timestamp : Int) (metadata : List (String × ℚ)) :
    Signal :=
  { mint := mint
    signal_type := signal_type
    strength := fclamp strength 0 1
    window := window
    timestamp := timestamp
    metadata := metadata }

/-- `evaluate_breakout` from `signals.rs`. -/
def evaluate_breakout (mint : String) (metrics : RollingMetrics)
    (timestamp : Int) : Option Signal :=
  let net_flow_60s := metrics.net_flow_60s_sol
  let net_flow_300s := metrics.net_flow_300s_sol
  let net_flow_900s := metrics.net_flow_900s_sol
  let unique_wallets := metrics.unique_wallets_300s
  let bot_ratio : ℚ :=
    if 0 < metrics.buy_count_300s + metrics.sell_count_300s then
      (metrics.bot_trades_count_300s : ℚ) /
        ((metrics.buy_count_300s + metrics.sell_count_300s : Int) : ℚ)
    else 0
  let is_accelerating := net_flow_900s < net_flow_300s ∧ 0 < net_flow_300s
  let momentum_shift := net_flow_300s < net_flow_60s
  let has_wallets := 5 ≤ unique_wallets
  let bot_ratio_ok := bot_ratio ≤ 3/10
  if is_accelerating ∧ momentum_shift ∧ has_wallets ∧ bot_ratio_ok then
    let acceleration := min ((net_flow_300s - net_flow_900s) / max net_flow_900s 1) 1
    let momentum_factor := min (net_flow_60s / max net_flow_300s 1) 1
    let wallet_factor := min ((unique_wallets : ℚ) / 20) 1
    let bot_factor := max (1 - bot_ratio) 0
    let strength := fclamp
      (acceleration * (3/10) + momentum_factor * (3/10) +
        wallet_factor * (2/10) + bot_factor * (2/10)) 0 1
    some (Signal.new mint SignalType.Breakout strength "300s" timestamp
      [("net_flow_60s", net_flow_60s), ("net_flow_300s", net_flow_300s),
        ("net_flow_900s", net_flow_900s),
        ("unique_wallets", (unique_wallets : ℚ)), ("bot_ratio", bot_ratio)])
  else none

/-- `evaluate_reaccumulation` from `signals.rs`. -/
def evaluate_reaccumulation (mint : String) (metrics : RollingMetrics)
    (timestamp : Int) : Option Signal :=
  let dca_flow := metrics.dca_flow_300s_sol
  let dca_wallets := metrics.dca_unique_wallets_300s
  let net_flow_300s := metrics.net_flow_300s_sol
  let net_flow_900s := metrics.net_flow_900s_sol
  let dca_active := 0 < dca_flow ∧ 2 ≤ dca_wallets
  let positive_flow := 0 < net_flow_300s
  let momentum_shift := net_flow_900s < net_flow_300s
  if dca_active ∧ positive_flow ∧ momentum_shift then
    let dca_factor := min (dca_flow / 10) 1
    let wallet_factor := min ((dca_wallets : ℚ) / 5) 1
    let flow_factor := min (net_flow_300s / 50) 1
    let momentum_factor :=
      min ((net_flow_300s - net_flow_900s) / max |net_flow_900s| 1) 1
    let strength := fclamp
      (dca_factor * (3/10) + wallet_factor * (2/10) +
        flow_factor * (3/10) + momentum_factor * (2/10)) 0 1
    some (Signal.new mint SignalType.Reaccumulation strength "300s" timestamp
      [("dca_flow", dca_flow), ("dca_wallets", (dca_wallets : ℚ)),
        ("net_flow_300s", net_flow_300s), ("net_flow_900s", net_flow_900s),
        ("dca_ratio", metrics.dca_ratio_300s)])
  else none

/-- The per-trade wallet-inflow accumulation of `evaluate_focused_buyers`
(`*wallet_flows.entry(..).or_insert(0.0) += flow`). -/
def bumpFlow (w : String) (q : ℚ) : List (String × ℚ) → List (String × ℚ)
  | [] => [(w, q)]
  | (w', f) :: rest =>
    if w' = w then (w', f + q) :: rest else (w', f) :: bumpFlow w q rest

/-- One step of the first loop of `evaluate_focused_buyers`: a trade's
signed flow is accumulated into the per-wallet map and the inflow total
only when positive. -/
def focusedStep (acc : List (String × ℚ) × ℚ) (t : TradeEvent) :
    List (String × ℚ) × ℚ :=
  let flow : ℚ :=
    match t.direction with
    | TradeDirection.Buy => t.sol_amount
    | TradeDirection.Sell => -t.sol_amount
    | TradeDirection.Unknown => 0
  if 0 < flow then (bumpFlow t.user_account flow acc.1, acc.2 + flow)
  else acc

/-- The first loop of `evaluate_focused_buyers`: per-wallet positive (Buy)
inflows in first-encounter order, together with the total inflow. -/
def walletFlowsAndTotal (recent_trades : List TradeEvent) :
    List (String × ℚ) × ℚ :=
  recent_trades.foldl focusedStep ([], 0)

/-- One insertion step of sorting the wallet vector by flow descending
(`sort_by(|a, b| b.1.partial_cmp(&a.1))`; ties keep their relative order,
which affects nothing the claims state). -/
def insertFlowDesc (x : String × ℚ) :
    List (String × ℚ) → List (String × ℚ)
  | [] => [x]
  | y :: ys => if y.2 < x.2 then x :: y :: ys else y :: insertFlowDesc x ys

/-- Sort the wallet vector by flow descending. -/
def sortByFlowDesc (l : List (String × ℚ)) : List (String × ℚ) :=
  l.foldr insertFlowDesc []

/-- The F-score loop of `evaluate_focused_buyers`: walks the sorted wallet
vector accumulating flow into `cum`, counting wallets, and stops as soon as
the cumulative flow reaches `target`. -/
def walletsNeeded : List (String × ℚ) → ℚ → ℚ → Nat
  | [], _, _ => 0
  | x :: rest, cum, target =>
    if target ≤ cum + x.2 then 1 else walletsNeeded rest (cum + x.2) target + 1

/-- `evaluate_focused_buyers` from `signals.rs`. -/
def evaluate_focused_buyers (mint : String) (metrics : RollingMetrics)
    (recent_trades : List TradeEvent) (timestamp : Int) : Option Signal :=
  if recent_trades.isEmpty ∨ metrics.net_flow_300s_sol ≤ 0 then none
  else
    let wf := walletFlowsAndTotal recent_trades
    let total_inflow := wf.2
    if total_inflow < 1 then none
    else
      let wallet_vec := sortByFlowDesc wf.1
      let target_flow := total_inflow * (7/10)
      let wallets_needed := walletsNeeded wallet_vec 0 target_flow
      let f_score : ℚ := (wallets_needed : ℚ) / (wallet_vec.length : ℚ)
      if f_score ≤ 35/100 ∧ 0 < metrics.net_flow_300s_sol then
        let concentration_factor := fclamp (1 - f_score / (35/100)) 0 1
        let flow_factor := min (metrics.net_flow_300s_sol / 50) 1
        let strength :=
          fclamp (concentration_factor * (6/10) + flow_factor * (4/10)) 0 1
        some (Signal.new mint SignalType.FocusedBuyers strength "300s" timestamp
          [("f_score", f_score), ("wallets_needed", (wallets_needed : ℚ)),
            ("total_wallets", (wallet_vec.length : ℚ)),
            ("net_flow_300s", metrics.net_flow_300s_sol),
            ("total_inflow", total_inflow)])
      else none

/-- `evaluate_persistence` from `signals.rs`. -/
def evaluate_persistence (mint : String) (metrics : RollingMetrics)
    (timestamp : Int) : Option Signal :=
  let positive_flow_60s := 0 < metrics.net_flow_60s_sol
  let positive_flow_300s := 0 < metrics.net_flow_300s_sol
  let positive_flow_900s := 0 < metrics.net_flow_900s_sol
  let has_wallets := 5 ≤ metrics.unique_wallets_300s
  let bot_ratio : ℚ :=
    if 0 < metrics.buy_count_300s + metrics.sell_count_300s then
      (metrics.bot_trades_count_300s : ℚ) /
        ((metrics.buy_count_300s + metrics.sell_count_300s : Int) : ℚ)
    else 0
  let no_bot_surge := bot_ratio ≤ 4/10
  if positive_flow_60s ∧ positive_flow_300s ∧ positive_flow_900s ∧
      has_wallets ∧ no_bot_surge then
    let flow_consistency := 1 -
      min (|metrics.net_flow_60s_sol - metrics.net_flow_300s_sol| /
        max metrics.net_flow_300s_sol 1) 1
    let flow_magnitude := min (metrics.net_flow_900s_sol / 100) 1
    let wallet_factor := min ((metrics.unique_wallets_300s : ℚ) / 20) 1
    let bot_factor := max (1 - bot_ratio) 0
    let strength := fclamp
      (flow_consistency * (3/10) + flow_magnitude * (3/10) +
        wallet_factor * (2/10) + bot_factor * (2/10)) 0 1
    some (Signal.new mint SignalType.Persistence strength "900s" timestamp
      [("net_flow_60s", metrics.net_flow_60s_sol),
        ("net_flow_300s", metrics.net_flow_300s_sol),
        ("net_flow_900s", metrics.net_flow_900s_sol),
        ("unique_wallets", (metrics.unique_wallets_300s : ℚ)),
        ("bot_ratio", bot_ratio)])
  else none

/-- `evaluate_flow_reversal` from `signals.rs`. -/
def evaluate_flow_reversal (mint : String) (metrics : RollingMetrics)
    (timestamp : Int) : Option Signal :=
  let flow_60s_negative := metrics.net_flow_60s_sol < 0
  let flow_300s_positive := 0 < metrics.net_flow_300s_sol
  let total_trades := metrics.buy_count_60s + metrics.sell_count_60s
  let wallets_per_trade : ℚ :=
    if 0 < total_trades then
      (metrics.unique_wallets_300s : ℚ) / ((total_trades : Int) : ℚ)
    else 0
  let wallet_drop := wallets_per_trade < 1/2
  if flow_60s_negative ∧ flow_300s_positive ∧ wallet_drop then
    let divergence := (metrics.net_flow_300s_sol - metrics.net_flow_60s_sol) /
      max metrics.net_flow_300s_sol 1
    let divergence_factor := min divergence 1
    let flow_magnitude := min (metrics.net_flow_300s_sol / 50) 1
    let strength :=
      fclamp (divergence_factor * (6/10) + flow_magnitude * (4/10)) 0 1
    some (Signal.new mint SignalType.FlowReversal strength "60s" timestamp
      [("net_flow_60s", metrics.net_flow_60s_sol),
        ("net_flow_300s", metrics.net_flow_300s_sol),
        ("unique_wallets", (metrics.unique_wallets_300s : ℚ)),
        ("total_trades_60s", ((total_trades : Int) : ℚ)),
        ("wallets_per_trade", wallets_per_trade)])
  else none

/-- `evaluate_signals` from `signals.rs`: runs the five detectors and
collects the triggered signals in order (the wall-clock `now` that the
source stamps on each signal is the explicit `now` parameter). -/
def evaluate_signals (mint : String) (metrics : RollingMetrics)
    (recent_trades : List TradeEvent) (now : Int) : List Signal :=
  List.filterMap id
    [evaluate_breakout mint metrics now,
      evaluate_reaccumulation mint metrics now,
      evaluate_focused_buyers mint metrics recent_trades now,
      evaluate_persistence mint metrics now,
      evaluate_flow_reversal mint metrics now]

lemma fclamp_mem_unit (x : ℚ) : 0 ≤ fclamp x 0 1 ∧ fclamp x 0 1 ≤ 1 := by
  unfold fclamp
  split_ifs with h1 h2 <;> constructor <;> linarith

lemma strength_of_breakout {mint : String} {metrics : RollingMetrics}
    {ts : Int} {sig : Signal} (h : evaluate_breakout mint metrics ts = some sig) :
    0 ≤ sig.strength ∧ sig.strength ≤ 1 := by
  unfold evaluate_breakout at h
  dsimp only at h
  split_ifs at h
  all_goals
    rw [Option.some_inj] at h
  all_goals
    subst h
  all_goals
    exact fclamp_mem_unit _

lemma strength_of_reaccumulation {mint : String} {metrics : RollingMetrics}
    {ts : Int} {sig : Signal}
    (h : evaluate_reaccumulation mint metrics ts = some sig) :
    0 ≤ sig.strength ∧ sig.strength ≤ 1 := by
  unfold evaluate_reaccumulation at h
  dsimp only at h
  split_ifs at h
  all_goals
    rw [Option.some_inj] at h
  all_goals
    subst h
  all_goals
    exact fclamp_mem_unit _

lemma strength_of_focused_buyers {mint : String} {metrics : RollingMetrics}
    {recent : List TradeEvent} {ts : Int} {sig : Signal}
    (h : evaluate_focused_buyers mint metrics recent ts = some sig) :
    0 ≤ sig.strength ∧ sig.strength ≤ 1 := by
  unfold evaluate_focused_buyers at h
  dsimp only at h
  split_ifs at h
  all_goals
    rw [Option.some_inj] at h
  all_goals
    subst h
  all_goals
    exact fclamp_mem_unit _

lemma strength_of_persistence {mint : String} {metrics : RollingMetrics}
    {ts : Int} {sig : Signal}
    (h : evaluate_persistence mint metrics ts = some sig) :
    0 ≤ sig.strength ∧ sig.strength ≤ 1 := by
  unfold evaluate_persistence at h
  dsimp only at h
  split_ifs at h
  all_goals
    rw [Option.some_inj] at h
  all_goals
    subst h
  all_goals
    exact fclamp_mem_unit _

lemma strength_of_flow_reversal {mint : String} {metrics : RollingMetrics}
    {ts : Int} {sig : Signal}
    (h : evaluate_flow_reversal mint metrics ts = some sig) :
    0 ≤ sig.strength ∧ sig.strength ≤ 1 := by
  unfold evaluate_flow_reversal at h
  dsimp only at h
  split_ifs at h
  all_goals
    rw [Option.some_inj] at h
  all_goals
    subst h
  all_goals
    exact fclamp_mem_unit _

/-- C8: for every mint, every `RollingMetrics` value, every recent-trades
list (and every signal timestamp), every `Signal` returned by
`evaluate_signals` has `0 ≤ strength ≤ 1`. -/
theorem claim_C8 (mint : String) (metrics : RollingMetrics)
    (recent_trades : List TradeEvent) (now : Int) :
    ∀ sig ∈ evaluate_signals mint metrics recent_trades now,
      0 ≤ sig.strength ∧ sig.strength ≤ 1 := by
  intro sig hsig
  simp only [evaluate_signals, List.mem_filterMap, id_eq, List.mem_cons,
    List.not_mem_nil, or_false] at hsig
  obtain ⟨o, ho, rfl⟩ := hsig
  rcases ho with h | h | h | h | h
  · exact strength_of_breakout h.symm
  · exact strength_of_reaccumulation h.symm
  · exact strength_of_focused_buyers h.symm
  · exact strength_of_persistence h.symm
  · exact strength_of_flow_reversal h.symm

/-- Concrete metrics for the `claim_C8` witness: only the FLOW_REVERSAL
detector triggers. -/
def c8Metrics : RollingMetrics where
  net_flow_60s_sol := -5
  net_flow_300s_sol := 50
  net_flow_900s_sol := -1
  net_flow_3600s_sol := 0
  net_flow_7200s_sol := 0
  net_flow_14400s_sol := 0
  buy_count_60s := 10
  sell_count_60s := 5
  buy_count_300s := 0
  sell_count_300s := 0
  buy_count_900s := 0
  sell_count_900s := 0
  unique_wallets_300s := 5
  bot_wallets_count_300s := 0
  bot_trades_count_300s := 0
  bot_flow_300s_sol := 0
  dca_buys_60s := 0
  dca_buys_300s := 0
  dca_buys_900s := 0
  dca_buys_3600s := 0
  dca_buys_14400s := 0
  dca_flow_300s_sol := 0
  dca_unique_wallets_300s := 0
  dca_ratio_300s := 0

/-- The signal `evaluate_signals` emits on `c8Metrics`. -/
def c8Signal : Signal :=
  ⟨"m", SignalType.FlowReversal, 1, "60s", 7,
    [("net_flow_60s", -5), ("net_flow_300s", 50), ("unique_wallets", 5),
      ("total_trades_60s", 15), ("wallets_per_trade", 1/3)]⟩

/-- Concrete instantiation of `claim_C8` on an emitted FLOW_REVERSAL
signal. -/
theorem claim_C8_witness : 0 ≤ c8Signal.strength ∧ c8Signal.strength ≤ 1 :=
  claim_C8 "m" c8Metrics [] 7 c8Signal
    (by
      have h : evaluate_signals "m" c8Metrics [] 7 = [c8Signal] := by
        norm_num [evaluate_signals, evaluate_breakout, evaluate_reaccumulation,
          evaluate_focused_buyers, evaluate_persistence, evaluate_flow_reversal,
          c8Metrics, c8Signal, Signal.new, fclamp, min_def, max_def,
          List.filterMap_cons, List.filterMap_nil]
      rw [h]
      exact List.Mem.head _)

/-- Adding a positive flow to the wallet map adds it to the map's total. -/
lemma bumpFlow_sum (w : String) (q : ℚ) (l : List (String × ℚ)) :
    ((bumpFlow w q l).map Prod.snd).sum = (l.map Prod.snd).sum + q := by
  induction l with
  | nil => simp [bumpFlow]
  | cons x rest ih =>
    obtain ⟨a, b⟩ := x
    by_cases hx : a = w
    · subst hx
      simp only [bumpFlow, eq_self_iff_true, if_true, ite_true, List.map_cons,
        List.sum_cons]
      ring
    · simp only [bumpFlow, if_neg hx, List.map_cons, List.sum_cons, ih]
      ring

/-- The running `total_inflow` of `evaluate_focused_buyers` equals the sum
of the per-wallet inflows it accumulates. -/
lemma walletFlowsAndTotal_total (recent : List TradeEvent) :
    (walletFlowsAndTotal recent).2 =
      ((walletFlowsAndTotal recent).1.map Prod.snd).sum := by
  have aux : ∀ (l : List TradeEvent) (acc : List (String × ℚ) × ℚ),
      acc.2 = (acc.1.map Prod.snd).sum →
      (l.foldl focusedStep acc).2 =
        ((l.foldl focusedStep acc).1.map Prod.snd).sum := by
    intro l
    induction l with
    | nil => intro acc hacc; simpa using hacc
    | cons t rest ih =>
      intro acc hacc
      rw [List.foldl_cons]
      apply ih
      unfold focusedStep
      dsimp only
      split_ifs with hf
      · simp [bumpFlow_sum, hacc]
      · exact hacc
  exact aux recent ([], 0) (by simp)

/-- Descending insertion permutes. -/
lemma insertFlowDesc_perm (x : String × ℚ) (l : List (String × ℚ)) :
    (insertFlowDesc x l).Perm (x :: l) := by
  induction l with
  | nil => exact List.Perm.refl _
  | cons y ys ih =>
    by_cases hy : y.2 < x.2
    · simp only [insertFlowDesc, if_pos hy]
      exact List.Perm.refl _
    · simp only [insertFlowDesc, if_neg hy]
      exact (ih.cons y).trans (List.Perm.swap x y ys)

/-- The descending sort of the wallet vector is a permutation of it. -/
lemma sortByFlowDesc_perm (l : List (String × ℚ)) :
    (sortByFlowDesc l).Perm l := by
  induction l with
  | nil => exact List.Perm.refl _
  | cons x rest ih =>
    exact (insertFlowDesc_perm x (sortByFlowDesc rest)).trans (ih.cons x)

/-- The F-score loop computes exactly the smallest prefix of the wallet
vector whose cumulative flow reaches the target: the target is reached at
the prefix it returns, and at no shorter prefix. -/
lemma walletsNeeded_spec (l : List (String × ℚ)) (cum target : ℚ)
    (hcum : cum < target) (htot : target ≤ cum + (l.map Prod.snd).sum) :
    target ≤ cum + ((l.map Prod.snd).take (walletsNeeded l cum target)).sum ∧
      ∀ j < walletsNeeded l cum target,
        cum + ((l.map Prod.snd).take j).sum < target := by
  induction l generalizing cum with
  | nil =>
    simp only [List.map_nil, List.sum_nil, add_zero] at htot
    exact absurd htot (not_le.mpr hcum)
  | cons x rest ih =>
    by_cases hx : target ≤ cum + x.2
    · refine ⟨?_, ?_⟩
      · simpa [walletsNeeded, hx] using hx
      · intro j hj
        have hj0 : j = 0 := by
          simp only [walletsNeeded, if_pos hx] at hj
          omega
        simpa [hj0] using hcum
    · have hrec : walletsNeeded (x :: rest) cum target =
          walletsNeeded rest (cum + x.2) target + 1 := by
        simp [walletsNeeded, hx]
      have hcum' : cum + x.2 < target := not_le.mp hx
      have htot' : target ≤ cum + x.2 + (rest.map Prod.snd).sum := by
        simp only [List.map_cons, List.sum_cons] at htot
        linarith
      obtain ⟨ha, hb⟩ := ih (cum + x.2) hcum' htot'
      refine ⟨?_, ?_⟩
      · rw [hrec]
        simp only [List.map_cons, List.take_succ_cons, List.sum_cons]
        linarith
      · intro j hj
        cases j with
        | zero => simpa using hcum
        | succ j' =>
          rw [hrec] at hj
          have hj' : j' < walletsNeeded rest (cum + x.2) target := by omega
          have hlt := hb j' hj'
          simp only [List.map_cons, List.take_succ_cons, List.sum_cons]
          linarith

/-- Per the spec's wording for FocusedBuyers: the per-wallet Buy inflows
sorted descending. -/
def buyInflows (recent : List TradeEvent) : List ℚ :=
  (sortByFlowDesc (walletFlowsAndTotal recent).1).map Prod.snd

/-- Per the spec's wording for FocusedBuyers: the total Buy inflow. -/
def totalBuyInflow (recent : List TradeEvent) : ℚ :=
  (walletFlowsAndTotal recent).2

/-- A Buy trade used in the concrete FocusedBuyers scenarios. -/
def mkBuy (w : String) (amt : ℚ) : TradeEvent :=
  ⟨1000, "m", TradeDirection.Buy, amt, 0, 6, w, "PumpSwap", false, false⟩

/-- The inflow profile (20, 15, 10, 1, 1, 1, 1, 1) from the claim. -/
def c5TradesB : List TradeEvent :=
  [mkBuy "a" 20, mkBuy "b" 15, mkBuy "c" 10, mkBuy "d" 1, mkBuy "e" 1,
    mkBuy "f" 1, mkBuy "g" 1, mkBuy "h" 1]

/-- The inflow profile (30, 20, 10, 1, 1, 1, 1, 1, 1, 1) from the claim. -/
def c5TradesC : List TradeEvent :=
  [mkBuy "a" 30, mkBuy "b" 20, mkBuy "c" 10, mkBuy "d" 1, mkBuy "e" 1,
    mkBuy "f" 1, mkBuy "g" 1, mkBuy "h" 1, mkBuy "i" 1, mkBuy "j" 1]

/-- Metrics with `net_flow_300s = 45.2` for the FocusedBuyers scenarios. -/
def c5Metrics : RollingMetrics where
  net_flow_60s_sol := 10
  net_flow_300s_sol := 452/10
  net_flow_900s_sol := 40
  net_flow_3600s_sol := 0
  net_flow_7200s_sol := 0
  net_flow_14400s_sol := 0
  buy_count_60s := 5
  sell_count_60s := 2
  buy_count_300s := 25
  sell_count_300s := 10
  buy_count_900s := 60
  sell_count_900s := 30
  unique_wallets_300s := 15
  bot_wallets_count_300s := 2
  bot_trades_count_300s := 5
  bot_flow_300s_sol := 5
  dca_buys_60s := 0
  dca_buys_300s := 0
  dca_buys_900s := 0
  dca_buys_3600s := 0
  dca_buys_14400s := 0
  dca_flow_300s_sol := 0
  dca_unique_wallets_300s := 0
  dca_ratio_300s := 0

/-- C5 counterexample: on the claim's own inflow profiles the detector
behaves differently from what the claim states.  On (20, 15, 10, 1, 1, 1,
1, 1) the total inflow is 50 (not 60): 70% of it is 35, the top-2 prefix
20 + 15 = 35 already reaches it, so k = 2, f = 2/8 = 0.25 ≤ 0.35 and the
detector DOES trigger (the claim says it does not, quoting f = 0.375).  On
(30, 20, 10, 1, 1, 1, 1, 1, 1, 1) the top-2 prefix 30 + 20 = 50 already
reaches the target 46.9, so k = 2, f = 0.2, and the emitted strength is
0.6·(1 − 0.2/0.35) + 0.4·min(1, 45.2/50), not the claimed
0.6·(1 − 0.3/0.35) + 0.4·min(1, 45.2/50). -/
theorem claim_C5_cex :
    (evaluate_focused_buyers "m" c5Metrics c5TradesB 7).isSome = true ∧
    (evaluate_focused_buyers "m" c5Metrics c5TradesC 7).map
        (fun s => s.strength) ≠
      some ((6/10) * (1 - (3/10) / (35/100)) + (4/10) * min 1 ((452/10) / 50)) := by
  constructor <;>
    norm_num +decide [evaluate_focused_buyers, walletFlowsAndTotal,
      focusedStep, bumpFlow, sortByFlowDesc, insertFlowDesc, walletsNeeded,
      c5Metrics, c5TradesB, c5TradesC, mkBuy, Signal.new, fclamp, min_def,
      max_def]

/-- C5 (amended): with a non-empty recent-trades list, positive
`net_flow_300s` and total Buy inflow at least 1, the FocusedBuyers
detector returns a signal iff `f ≤ 0.35`, where `f = k / wallet_count` and
`k` is the smallest prefix of the wallets sorted by Buy inflow descending
whose cumulative inflow reaches 70% of the total inflow.  On the profile
(20, 15, 10, 1, 1, 1, 1, 1) (total 50) the top-2 prefix reaches 35 = 70%,
so k = 2, f = 0.25 and it triggers; on (30, 20, 10, 1, 1, 1, 1, 1, 1, 1)
(total 67) the top-2 prefix reaches 50 ≥ 46.9, so k = 2, f = 0.2 and it
triggers with strength 0.6·(1 − 0.2/0.35) + 0.4·min(1, 45.2/50). -/
theorem claim_C5 :
    (∀ (mint : String) (metrics : RollingMetrics) (recent : List TradeEvent)
        (now : Int),
      recent ≠ [] →
      0 < metrics.net_flow_300s_sol →
      1 ≤ totalBuyInflow recent →
      ∀ hex : ∃ k, totalBuyInflow recent * (7/10) ≤
          ((buyInflows recent).take k).sum,
      ((evaluate_focused_buyers mint metrics recent now).isSome = true ↔
        (Nat.find hex : ℚ) / ((buyInflows recent).length : ℚ) ≤ 35/100)) ∧
    ((evaluate_focused_buyers "m" c5Metrics c5TradesB 7).isSome = true ∧
      walletsNeeded (sortByFlowDesc (walletFlowsAndTotal c5TradesB).1) 0
        (totalBuyInflow c5TradesB * (7/10)) = 2 ∧
      (buyInflows c5TradesB).length = 8) ∧
    ((evaluate_focused_buyers "m" c5Metrics c5TradesC 7).map
        (fun s => s.strength) =
      some ((6/10) * (1 - (2/10) / (35/100)) + (4/10) * min 1 ((452/10) / 50)) ∧
      walletsNeeded (sortByFlowDesc (walletFlowsAndTotal c5TradesC).1) 0
        (totalBuyInflow c5TradesC * (7/10)) = 2 ∧
      (buyInflows c5TradesC).length = 10) := by
  refine ⟨?_, ?_, ?_⟩
  · intro mint metrics recent now hne hpos htot hex
    have hsum : ((sortByFlowDesc (walletFlowsAndTotal recent).1).map
        Prod.snd).sum = totalBuyInflow recent := by
      have hperm := (sortByFlowDesc_perm (walletFlowsAndTotal recent).1).map
        Prod.snd
      rw [hperm.sum_eq]
      exact (walletFlowsAndTotal_total recent).symm
    have hpos' : (0:ℚ) < totalBuyInflow recent * (7/10) := by
      have h0 : (0:ℚ) < totalBuyInflow recent := lt_of_lt_of_le one_pos htot
      nlinarith
    have htot' : totalBuyInflow recent * (7/10) ≤
        0 + ((sortByFlowDesc (walletFlowsAndTotal recent).1).map
          Prod.snd).sum := by
      rw [zero_add, hsum]
      nlinarith [lt_of_lt_of_le one_pos htot]
    obtain ⟨ha, hb⟩ := walletsNeeded_spec
      (sortByFlowDesc (walletFlowsAndTotal recent).1) 0
      (totalBuyInflow recent * (7/10)) hpos' htot'
    have key : Nat.find hex = walletsNeeded
        (sortByFlowDesc (walletFlowsAndTotal recent).1) 0
        (totalBuyInflow recent * (7/10)) := by
      rw [Nat.find_eq_iff]
      constructor
      · simpa [buyInflows] using ha
      · intro m hm
        have hlt := hb m hm
        simp only [zero_add] at hlt
        simpa [buyInflows] using not_le.mpr hlt
    have hlen : (buyInflows recent).length =
        (sortByFlowDesc (walletFlowsAndTotal recent).1).length := by
      simp [buyInflows]
    unfold evaluate_focused_buyers
    have hie : ¬(recent.isEmpty = true ∨ metrics.net_flow_300s_sol ≤ 0) := by
      rw [not_or]
      constructor
      · simpa [List.isEmpty_iff] using hne
      · exact not_le.mpr hpos
    rw [if_neg hie]
    dsimp only
    have hwf : ¬((walletFlowsAndTotal recent).2 < 1) := by
      rw [not_lt]
      exact htot
    rw [if_neg hwf]
    split_ifs with hcond
    · simp only [Option.isSome_some, true_iff]
      rw [key, hlen]
      exact hcond.1
    · simp only [Option.isSome_none, Bool.false_eq_true, false_iff, not_le]
      rw [not_and_or] at hcond
      rcases hcond with hfc | hnet
      · rw [not_le] at hfc
        rw [key, hlen]
        exact hfc
      · exact absurd hpos hnet
  · refine ⟨?_, ?_, ?_⟩ <;>
      norm_num +decide [evaluate_focused_buyers, walletFlowsAndTotal,
        focusedStep, bumpFlow, sortByFlowDesc, insertFlowDesc, walletsNeeded,
        buyInflows, totalBuyInflow, c5Metrics, c5TradesB, mkBuy, Signal.new,
        fclamp, min_def, max_def]
  · refine ⟨?_, ?_, ?_⟩ <;>
      norm_num +decide [evaluate_focused_buyers, walletFlowsAndTotal,
        focusedStep, bumpFlow, sortByFlowDesc, insertFlowDesc, walletsNeeded,
        buyInflows, totalBuyInflow, c5Metrics, c5TradesC, mkBuy, Signal.new,
        fclamp, min_def, max_def]

/-- The 70%-coverage prefix exists for the concrete profile `c5TradesC`. -/
lemma c5hex : ∃ k, totalBuyInflow c5TradesC * (7/10) ≤
    ((buyInflows c5TradesC).take k).sum := by
  refine ⟨10, ?_⟩
  norm_num +decide [totalBuyInflow, buyInflows, walletFlowsAndTotal,
    focusedStep, bumpFlow, sortByFlowDesc, insertFlowDesc, c5TradesC, mkBuy]

/-- Concrete instantiation of the quantified part of `claim_C5` on the
(30, 20, 10, 1, 1, 1, 1, 1, 1, 1) profile. -/
theorem claim_C5_witness :
    ∃ hex : ∃ k, totalBuyInflow c5TradesC * (7/10) ≤
        ((buyInflows c5TradesC).take k).sum,
      ((evaluate_focused_buyers "m" c5Metrics c5TradesC 7).isSome = true ↔
        (Nat.find hex : ℚ) / ((buyInflows c5TradesC).length : ℚ) ≤ 35/100) :=
  ⟨c5hex,
    claim_C5.1 "m" c5Metrics c5TradesC 7
      (by simp [c5TradesC])
      (by norm_num [c5Metrics])
      (by
        norm_num +decide [totalBuyInflow, walletFlowsAndTotal, focusedStep,
          bumpFlow, c5TradesC, mkBuy])
      c5hex⟩

/-- The shape of every `TradeEvent` a normalizer adapter can emit: the
direction is never `Unknown` (the DCA adapter drops such fills), `is_dca`
holds exactly for the JupiterDCA adapter, and `is_bot` starts `false`. -/
def TradeEvent.normalized (t : TradeEvent) : Prop :=
  t.direction ≠ TradeDirection.Unknown ∧
  (t.is_dca = true ↔ t.source_program = "JupiterDCA") ∧
  t.is_bot = false

instance (t : TradeEvent) : Decidable t.normalized := by
  unfold TradeEvent.normalized
  infer_instance

/-- Rolling states reachable through the dispatcher pipeline: starting from
`new`, adding normalizer-produced trades with non-decreasing timestamps
(the spec requires callers to pass monotonically non-decreasing times) and
evicting at arbitrary times. -/
inductive Reach : TokenRollingState → Prop where
  | init (mint : String) : Reach (TokenRollingState.new mint)
  | add (s : TokenRollingState) (t : TradeEvent) : Reach s → t.normalized →
      s.last_seen_ts ≤ t.timestamp → Reach (s.add_trade t)
  | evict (s : TokenRollingState) (now : Int) : Reach s →
      Reach (s.evict_old_trades now)

lemma storedTrade_direction (s : TokenRollingState) (t : TradeEvent) :
    (s.storedTrade t).direction = t.direction := by
  unfold TokenRollingState.storedTrade
  split_ifs <;> rfl

lemma storedTrade_source (s : TokenRollingState) (t : TradeEvent) :
    (s.storedTrade t).source_program = t.source_program := by
  unfold TokenRollingState.storedTrade
  split_ifs <;> rfl

lemma storedTrade_dca (s : TokenRollingState) (t : TradeEvent) :
    (s.storedTrade t).is_dca = t.is_dca := by
  unfold TokenRollingState.storedTrade
  split_ifs <;> rfl

lemma storedTrade_timestamp (s : TokenRollingState) (t : TradeEvent) :
    (s.storedTrade t).timestamp = t.timestamp := by
  unfold TokenRollingState.storedTrade
  split_ifs <;> rfl

/-- Front-pruning a sorted deque of timestamps is the same as retaining
the timestamps at or after the cutoff. -/
lemma dropWhile_eq_filter_of_sorted (c : Int) (l : List Int)
    (h : l.Pairwise (fun a b => a ≤ b)) :
    l.dropWhile (fun ts => decide (ts < c)) =
      l.filter (fun ts => decide (c ≤ ts)) := by
  induction l with
  | nil => simp
  | cons x xs ih =>
    rw [List.pairwise_cons] at h
    obtain ⟨hx_le, hxs⟩ := h
    by_cases hx : x < c
    · rw [List.dropWhile_cons_of_pos (by simpa using hx),
        List.filter_cons_of_neg (by simpa using not_le.mpr hx)]
      exact ih hxs
    · have hcx : c ≤ x := not_lt.mp hx
      rw [List.dropWhile_cons_of_neg (by simpa using hx),
        List.filter_cons_of_pos (by simpa using hcx)]
      have hall : xs.filter (fun ts => decide (c ≤ ts)) = xs :=
        List.filter_eq_self.mpr
          (fun y hy => by simpa using le_trans hcx (hx_le y hy))
      rw [hall]

/-- Projection lemmas for `add_trade` and `evict_old_trades` (definitional). -/
lemma add_trade_trades_60s (s : TokenRollingState) (t : TradeEvent) :
    (s.add_trade t).trades_60s = s.trades_60s ++ [s.storedTrade t] := rfl

lemma add_trade_trades_300s (s : TokenRollingState) (t : TradeEvent) :
    (s.add_trade t).trades_300s = s.trades_300s ++ [s.storedTrade t] := rfl

lemma add_trade_trades_900s (s : TokenRollingState) (t : TradeEvent) :
    (s.add_trade t).trades_900s = s.trades_900s ++ [s.storedTrade t] := rfl

lemma add_trade_trades_3600s (s : TokenRollingState) (t : TradeEvent) :
    (s.add_trade t).trades_3600s = s.trades_3600s ++ [s.storedTrade t] := rfl

lemma add_trade_trades_7200s (s : TokenRollingState) (t : TradeEvent) :
    (s.add_trade t).trades_7200s = s.trades_7200s ++ [s.storedTrade t] := rfl

lemma add_trade_trades_14400s (s : TokenRollingState) (t : TradeEvent) :
    (s.add_trade t).trades_14400s = s.trades_14400s ++ [s.storedTrade t] := rfl

lemma add_trade_last_seen (s : TokenRollingState) (t : TradeEvent) :
    (s.add_trade t).last_seen_ts = t.timestamp := rfl

lemma add_trade_activity (s : TokenRollingState) (t : TradeEvent) :
    (s.add_trade t).wallet_activity_60s =
      updateActivity t.user_account t.timestamp s.wallet_activity_60s := rfl

lemma add_trade_dca300 (s : TokenRollingState) (t : TradeEvent) :
    (s.add_trade t).dca_timestamps_300s =
      if t.source_program = "JupiterDCA" ∧ t.direction = TradeDirection.Buy
      then s.dca_timestamps_300s ++ [t.timestamp]
      else s.dca_timestamps_300s := rfl

lemma evict_trades_60s (s : TokenRollingState) (now : Int) :
    (s.evict_old_trades now).trades_60s =
      s.trades_60s.filter (fun t => decide (now - 60 ≤ t.timestamp)) := rfl

lemma evict_trades_300s (s : TokenRollingState) (now : Int) :
    (s.evict_old_trades now).trades_300s =
      s.trades_300s.filter (fun t => decide (now - 300 ≤ t.timestamp)) := rfl

lemma evict_trades_900s (s : TokenRollingState) (now : Int) :
    (s.evict_old_trades now).trades_900s =
      s.trades_900s.filter (fun t => decide (now - 900 ≤ t.timestamp)) := rfl

lemma evict_trades_3600s (s : TokenRollingState) (now : Int) :
    (s.evict_old_trades now).trades_3600s =
      s.trades_3600s.filter (fun t => decide (now - 3600 ≤ t.timestamp)) := rfl

lemma evict_trades_7200s (s : TokenRollingState) (now : Int) :
    (s.evict_old_trades now).trades_7200s =
      s.trades_7200s.filter (fun t => decide (now - 7200 ≤ t.timestamp)) := rfl

lemma evict_trades_14400s (s : TokenRollingState) (now : Int) :
    (s.evict_old_trades now).trades_14400s =
      s.trades_14400s.filter (fun t => decide (now - 14400 ≤ t.timestamp)) := rfl

lemma evict_last_seen (s : TokenRollingState) (now : Int) :
    (s.evict_old_trades now).last_seen_ts = s.last_seen_ts := rfl

lemma evict_activity (s : TokenRollingState) (now : Int) :
    (s.evict_old_trades now).wallet_activity_60s =
      s.wallet_activity_60s.filter (fun e => decide (now - 60 ≤ e.2.2)) := rfl

lemma evict_dca300 (s : TokenRollingState) (now : Int) :
    (s.evict_old_trades now).dca_timestamps_300s =
      s.dca_timestamps_300s.dropWhile (fun ts => decide (ts < now - 300)) := rfl

/-- The per-mint invariant tying the 300s DCA deque to the 300s trade
sequence on pipeline-reachable states. -/
def inv300 (s : TokenRollingState) : Prop :=
  (∀ t ∈ s.trades_300s, t.direction ≠ TradeDirection.Unknown ∧
      (t.is_dca = true ↔ t.source_program = "JupiterDCA")) ∧
  s.trades_300s.Pairwise (fun a b => a.timestamp ≤ b.timestamp) ∧
  (∀ t ∈ s.trades_300s, t.timestamp ≤ s.last_seen_ts) ∧
  s.dca_timestamps_300s =
    (s.trades_300s.filter
      (fun t => decide (t.source_program = "JupiterDCA") &&
        decide (t.direction = TradeDirection.Buy))).map (fun t => t.timestamp)

lemma inv300_add (s : TokenRollingState) (t : TradeEvent) (h : inv300 s)
    (hn : t.normalized) (hts : s.last_seen_ts ≤ t.timestamp) :
    inv300 (s.add_trade t) := by
  obtain ⟨h1, h2, h3, h4⟩ := h
  obtain ⟨hdir, hdca, -⟩ := hn
  simp only [inv300, add_trade_trades_300s, add_trade_last_seen,
    add_trade_dca300]
  refine ⟨?_, ?_, ?_, ?_⟩
  · intro u hu
    rcases List.mem_append.mp hu with hu | hu
    · exact h1 u hu
    · rw [List.mem_singleton] at hu
      subst hu
      rw [storedTrade_direction, storedTrade_dca, storedTrade_source]
      exact ⟨hdir, hdca⟩
  · rw [List.pairwise_append]
    refine ⟨h2, List.pairwise_singleton _ _, ?_⟩
    intro a ha b hb
    rw [List.mem_singleton] at hb
    subst hb
    rw [storedTrade_timestamp]
    exact le_trans (h3 a ha) hts
  · intro u hu
    rcases List.mem_append.mp hu with hu | hu
    · exact le_trans (h3 u hu) hts
    · rw [List.mem_singleton] at hu
      subst hu
      rw [storedTrade_timestamp]
  · rw [List.filter_append, List.map_append]
    by_cases hp : t.source_program = "JupiterDCA" ∧
        t.direction = TradeDirection.Buy
    · rw [if_pos hp, h4]
      have hsf : (List.filter
          (fun u => decide (u.source_program = "JupiterDCA") &&
            decide (u.direction = TradeDirection.Buy)) [s.storedTrade t]) =
          [s.storedTrade t] := by
        simp [storedTrade_source, storedTrade_direction, hp.1, hp.2]
      rw [hsf]
      simp [storedTrade_timestamp]
    · rw [if_neg hp]
      have hsf : (List.filter
          (fun u => decide (u.source_program = "JupiterDCA") &&
            decide (u.direction = TradeDirection.Buy)) [s.storedTrade t]) =
          [] := by
        rcases not_and_or.mp hp with hA | hB
        · simp [storedTrade_source, hA]
        · simp [storedTrade_direction, hB]
      rw [hsf]
      simp [h4]

lemma inv300_evict (s : TokenRollingState) (now : Int) (h : inv300 s) :
    inv300 (s.evict_old_trades now) := by
  obtain ⟨h1, h2, h3, h4⟩ := h
  simp only [inv300, evict_trades_300s, evict_last_seen, evict_dca300]
  refine ⟨?_, ?_, ?_, ?_⟩
  · intro u hu
    exact h1 u (List.mem_of_mem_filter hu)
  · exact h2.sublist (List.filter_sublist _)
  · intro u hu
    exact h3 u (List.mem_of_mem_filter hu)
  · rw [h4]
    have hsorted : ((s.trades_300s.filter
        (fun t => decide (t.source_program = "JupiterDCA") &&
          decide (t.direction = TradeDirection.Buy))).map
        (fun t => t.timestamp)).Pairwise (fun a b => a ≤ b) := by
      rw [List.pairwise_map]
      exact h2.sublist (List.filter_sublist _)
    rw [dropWhile_eq_filter_of_sorted _ _ hsorted, List.filter_map]
    rw [List.filter_filter, List.filter_filter]
    congr 1
    apply List.filter_congr
    intro x _
    simp only [Function.comp_apply, Bool.and_comm]

/-- Every pipeline-reachable state satisfies the 300s invariant. -/
lemma reach_inv300 (s : TokenRollingState) (h : Reach s) : inv300 s := by
  induction h with
  | init m => simp [inv300, TokenRollingState.new]
  | add s t hr hn hts ih => exact inv300_add s t ih hn hts
  | evict s now hr ih => exact inv300_evict s now ih


/-- The window loop's buy and sell counters count the Buy and Sell trades. -/
lemma cwm_counts (l : List TradeEvent) :
    (computeWindowMetrics l).2.1 =
      ((l.filter (fun t =>
        decide (t.direction = TradeDirection.Buy))).length : Int) ∧
    (computeWindowMetrics l).2.2 =
      ((l.filter (fun t =>
        decide (t.direction = TradeDirection.Sell))).length : Int) := by
  have aux : ∀ (l : List TradeEvent) (a : ℚ × Int × Int),
      (l.foldl cwmStep a).2.1 = a.2.1 +
        ((l.filter (fun t =>
          decide (t.direction = TradeDirection.Buy))).length : Int) ∧
      (l.foldl cwmStep a).2.2 = a.2.2 +
        ((l.filter (fun t =>
          decide (t.direction = TradeDirection.Sell))).length : Int) := by
    intro l
    induction l with
    | nil => intro a; simp
    | cons t rest ih =>
      intro a
      rw [List.foldl_cons]
      obtain ⟨ihb, ihs⟩ := ih (cwmStep a t)
      cases hd : t.direction
      all_goals
        simp [cwmStep, hd] at ihb ihs
      all_goals
        simp [cwmStep, hd, ihb, ihs]
      all_goals
        try constructor
      all_goals
        try omega
  have := aux l (0, 0, 0)
  simpa [computeWindowMetrics] using this

/-- The bot loop's counter counts the `is_bot` trades. -/
lemma bot_count (l : List TradeEvent) :
    (computeBotMetrics l).1 =
      ((l.filter (fun t => t.is_bot)).length : Int) := by
  have aux : ∀ (l : List TradeEvent) (a : Int × ℚ),
      (l.foldl botStep a).1 = a.1 +
        ((l.filter (fun t => t.is_bot)).length : Int) := by
    intro l
    induction l with
    | nil => intro a; simp
    | cons t rest ih =>
      intro a
      rw [List.foldl_cons]
      have ihx := ih (botStep a t)
      cases hb : t.is_bot
      all_goals
        simp [botStep, hb] at ihx
      all_goals
        simp [botStep, hb, ihx]
      all_goals
        try omega
  have := aux l (0, 0)
  simpa [computeBotMetrics] using this

/-- In a window containing no Unknown-direction trades, the Buy and Sell
counts partition the window. -/
lemma buy_add_sell (l : List TradeEvent)
    (h : ∀ t ∈ l, t.direction ≠ TradeDirection.Unknown) :
    (l.filter (fun t => decide (t.direction = TradeDirection.Buy))).length +
      (l.filter (fun t =>
        decide (t.direction = TradeDirection.Sell))).length = l.length := by
  induction l with
  | nil => simp
  | cons t rest ih =>
    have hrest := ih (fun u hu => h u (List.mem_cons_of_mem t hu))
    have ht := h t (List.mem_cons_self t rest)
    cases hd : t.direction
    · simp [List.filter_cons, hd]
      omega
    · simp [List.filter_cons, hd]
      omega
    · exact absurd hd ht

/-- Projection lemmas for `compute_rolling_metrics` (definitional). -/
lemma crm_bot_trades (s : TokenRollingState) :
    (s.compute_rolling_metrics).bot_trades_count_300s =
      (computeBotMetrics s.trades_300s).1 := rfl

lemma crm_buy300 (s : TokenRollingState) :
    (s.compute_rolling_metrics).buy_count_300s =
      (computeWindowMetrics s.trades_300s).2.1 := rfl

lemma crm_sell300 (s : TokenRollingState) :
    (s.compute_rolling_metrics).sell_count_300s =
      (computeWindowMetrics s.trades_300s).2.2 := rfl

lemma crm_dca_buys_300 (s : TokenRollingState) :
    (s.compute_rolling_metrics).dca_buys_300s =
      (s.dca_timestamps_300s.length : Int) := rfl

/-- A JupiterDCA fill that sells into SOL, exactly as the normalizer emits
it: `is_dca = true`, `direction = Sell`. -/
def jupSellTrade : TradeEvent :=
  ⟨100, "tok", TradeDirection.Sell, 2, 5, 6, "u", "JupiterDCA", false, true⟩

/-- A JupiterDCA fill that buys with SOL, exactly as the normalizer emits
it: `is_dca = true`, `direction = Buy`. -/
def jupBuyTrade : TradeEvent :=
  ⟨100, "tok", TradeDirection.Buy, 2, 5, 6, "u", "JupiterDCA", false, true⟩

/-- C1 counterexample: adding a single JupiterDCA Sell fill (`is_dca =
true`, `direction = Sell`) to a fresh state gives a reachable state whose
`dca_buys_300s` is 0 (the DCA deques only record JupiterDCA Buys) while
the 300s sequence contains one `is_dca` trade, so the claimed equality
fails. -/
theorem claim_C1_cex :
    ¬(|(((TokenRollingState.new "tok").add_trade
          jupSellTrade).compute_rolling_metrics).bot_trades_count_300s| ≤
        (((TokenRollingState.new "tok").add_trade
          jupSellTrade).compute_rolling_metrics).buy_count_300s +
          (((TokenRollingState.new "tok").add_trade
            jupSellTrade).compute_rolling_metrics).sell_count_300s ∧
      (((TokenRollingState.new "tok").add_trade
          jupSellTrade).compute_rolling_metrics).dca_buys_300s =
        ((((TokenRollingState.new "tok").add_trade jupSellTrade).trades_300s.filter
          (fun t => t.is_dca)).length : Int)) := by
  intro hc
  have h2 := hc.2
  revert h2
  decide

/-- C1 (amended): for every pipeline-reachable `TokenRollingState` (built
from normalizer-shaped trades added with non-decreasing timestamps),
`|bot_trades_count_300s| ≤ buy_count_300s + sell_count_300s`, and
`dca_buys_300s` equals the count of trades in the 300s sequence with
`is_dca = true` AND `direction = Buy` (a JupiterDCA Sell fill carries
`is_dca = true` but is never recorded in the DCA deques). -/
theorem claim_C1 (s : TokenRollingState) (h : Reach s) :
    |(s.compute_rolling_metrics).bot_trades_count_300s| ≤
      (s.compute_rolling_metrics).buy_count_300s +
        (s.compute_rolling_metrics).sell_count_300s ∧
    (s.compute_rolling_metrics).dca_buys_300s =
      ((s.trades_300s.filter (fun t =>
        t.is_dca && decide (t.direction = TradeDirection.Buy))).length : Int) := by
  obtain ⟨h1, h2, h3, h4⟩ := reach_inv300 s h
  constructor
  · rw [crm_bot_trades, crm_buy300, crm_sell300, bot_count,
      (cwm_counts s.trades_300s).1, (cwm_counts s.trades_300s).2]
    rw [abs_of_nonneg (Int.natCast_nonneg _)]
    have hsplit := buy_add_sell s.trades_300s (fun t ht => (h1 t ht).1)
    have hle := List.length_filter_le (fun t => t.is_bot) s.trades_300s
    omega
  · rw [crm_dca_buys_300, h4, List.length_map]
    have hcongr : s.trades_300s.filter
        (fun t => decide (t.source_program = "JupiterDCA") &&
          decide (t.direction = TradeDirection.Buy)) =
        s.trades_300s.filter (fun t =>
          t.is_dca && decide (t.direction = TradeDirection.Buy)) := by
      apply List.filter_congr
      intro x hx
      have hiff := (h1 x hx).2
      have hd2 : decide (x.source_program = "JupiterDCA") = x.is_dca := by
        cases hdca : x.is_dca
        · rw [decide_eq_false_iff_not]
          intro hc
          have hfalse := hiff.mpr hc
          rw [hdca] at hfalse
          exact Bool.false_ne_true hfalse
        · rw [decide_eq_true_eq]
          exact hiff.mp hdca
      rw [hd2]
    rw [hcongr]

/-- Concrete instantiation of `claim_C1` on the state reached by one
JupiterDCA Buy fill. -/
theorem claim_C1_witness :
    |(((TokenRollingState.new "tok").add_trade
        jupBuyTrade).compute_rolling_metrics).bot_trades_count_300s| ≤
      (((TokenRollingState.new "tok").add_trade
        jupBuyTrade).compute_rolling_metrics).buy_count_300s +
        (((TokenRollingState.new "tok").add_trade
          jupBuyTrade).compute_rolling_metrics).sell_count_300s ∧
    (((TokenRollingState.new "tok").add_trade
        jupBuyTrade).compute_rolling_metrics).dca_buys_300s =
      ((((TokenRollingState.new "tok").add_trade jupBuyTrade).trades_300s.filter
        (fun t => t.is_dca && decide (t.direction = TradeDirection.Buy))).length :
        Int) :=
  claim_C1 _
    (Reach.add _ _ (Reach.init "tok") (by decide) (by decide))

/-- The base-currency (wrapped SOL) mint constant from
`trade_extractor.rs`. -/
def SOL_MINT : String := "So11111111111111111111111111111111111111112"

/-- The fields of a JupiterDCA `FilledEvent` the adapter reads. -/
structure FilledEvent where
  input_mint : String
  output_mint : String
  in_amount : Nat
  out_amount : Nat
  user_key : String
deriving DecidableEq

/-- `TradeExtractor::extract_jupiter_dca_filled_event`.  The source stamps
the event with `chrono::Utc::now().timestamp()`; that ambient wall clock is
the explicit `wallClock` parameter here. -/
def extract_jupiter_dca_filled_event (event : FilledEvent) (wallClock : Int) :
    Option TradeEvent :=
  let direction :=
    if event.input_mint = SOL_MINT then TradeDirection.Buy
    else if event.output_mint = SOL_MINT then TradeDirection.Sell
    else TradeDirection.Unknown
  if direction = TradeDirection.Unknown then none
  else
    let sol_amount : ℚ :=
      if direction = TradeDirection.Buy then (event.in_amount : ℚ) / 1000000000
      else (event.out_amount : ℚ) / 1000000000
    let token_amount : ℚ :=
      if direction = TradeDirection.Buy then (event.out_amount : ℚ)
      else (event.in_amount : ℚ)
    some
      { timestamp := wallClock
        mint := if direction = TradeDirection.Buy then event.output_mint
          else event.input_mint
        direction := direction
        sol_amount := sol_amount
        token_amount := token_amount
        token_decimals := 6
        user_account := event.user_key
        source_program := "JupiterDCA"
        is_bot := false
        is_dca := true }

/-- Pumpfun decoded instruction data (fields the adapter reads). -/
structure PumpfunBuyFields where
  max_sol_cost : Nat
  amount : Nat
deriving DecidableEq

structure PumpfunSellFields where
  min_sol_output : Nat
  amount : Nat
deriving DecidableEq

/-- Pumpfun arranged accounts. -/
structure PumpfunAccounts where
  mint : String
  user : String
deriving DecidableEq

inductive PumpfunInstruction where
  | buy (fields : PumpfunBuyFields)
  | sell (fields : PumpfunSellFields)
  | other
deriving DecidableEq

/-- The parts of a Pumpfun instruction tuple the unified adapter reads:
the transaction block time and the decoded variant; `accounts` is the
result of `arrange_accounts` (which can fail). -/
structure PumpfunInput where
  block_time : Option Int
  data : PumpfunInstruction
  accounts : Option PumpfunAccounts

/-- `TradeExtractor::extract_pumpfun_buy`. -/
def extract_pumpfun_buy (accounts : PumpfunAccounts)
    (instruction : PumpfunBuyFields) (timestamp : Int) : Option TradeEvent :=
  some
    { timestamp := timestamp
      mint := accounts.mint
      direction := TradeDirection.Buy
      sol_amount := (instruction.max_sol_cost : ℚ) / 1000000000
      token_amount := (instruction.amount : ℚ)
      token_decimals := 6
      user_account := accounts.user
      source_program := "Pumpfun"
      is_bot := false
      is_dca := false }

/-- `TradeExtractor::extract_pumpfun_sell`. -/
def extract_pumpfun_sell (accounts : PumpfunAccounts)
    (instruction : PumpfunSellFields) (timestamp : Int) : Option TradeEvent :=
  some
    { timestamp := timestamp
      mint := accounts.mint
      direction := TradeDirection.Sell
      sol_amount := (instruction.min_sol_output : ℚ) / 1000000000
      token_amount := (instruction.amount : ℚ)
      token_decimals := 6
      user_account := accounts.user
      source_program := "Pumpfun"
      is_bot := false
      is_dca := false }

/-- `TradeExtractor::extract_from_pumpfun`. -/
def extract_from_pumpfun (input : PumpfunInput) : Option TradeEvent :=
  let timestamp := input.block_time.getD 0
  match input.data with
  | PumpfunInstruction.buy b =>
    input.accounts.bind (fun a => extract_pumpfun_buy a b timestamp)
  | PumpfunInstruction.sell s =>
    input.accounts.bind (fun a => extract_pumpfun_sell a s timestamp)
  | PumpfunInstruction.other => none

/-- Transaction metadata fields used by the PumpSwap adapter. -/
structure TxMeta where
  block_time : Option Int
  account_keys : List String
  pre_balances : List Nat
  post_balances : List Nat
  fee : Nat
deriving DecidableEq

/-- `TradeExtractor::get_account_index`: linear scan of the static account
keys for the user key. -/
def get_account_index (metadata : TxMeta) (user : String) : Option Nat :=
  metadata.account_keys.findIdx? (fun k => decide (k = user))

/-- `TradeExtractor::compute_sol_delta_from_metadata`: realized SOL delta
of the user's account, fee-corrected when the user is the fee payer. -/
def compute_sol_delta_from_metadata (metadata : TxMeta) (user : String) :
    Option ℚ :=
  match get_account_index metadata user with
  | none => none
  | some i =>
    match metadata.pre_balances.get? i, metadata.post_balances.get? i with
    | some pre, some post =>
      let fee : Int := if i = 0 then (metadata.fee : Int) else 0
      let delta : Int := (post : Int) - (pre : Int) + fee
      some ((delta.natAbs : ℚ) / 1000000000)
    | _, _ => none

structure PumpSwapBuyEventFields where
  timestamp : Int
  pool : String
  quote_amount_in : Nat
  base_amount_out : Nat
  user : String
deriving DecidableEq

structure PumpSwapSellEventFields where
  timestamp : Int
  pool : String
  quote_amount_out : Nat
  base_amount_in : Nat
  user : String
deriving DecidableEq

structure PumpSwapAccounts where
  base_mint : String
  user : String
deriving DecidableEq

structure PumpSwapBuyFields where
  base_amount_out : Nat
  max_quote_amount_in : Nat
deriving DecidableEq

structure PumpSwapSellFields where
  base_amount_in : Nat
  min_quote_amount_out : Nat
deriving DecidableEq

structure PumpSwapBuyExactFields where
  spendable_quote_in : Nat
  min_base_amount_out : Nat
deriving DecidableEq

inductive PumpSwapInstruction where
  | buyEvent (e : PumpSwapBuyEventFields)
  | sellEvent (e : PumpSwapSellEventFields)
  | buy (f : PumpSwapBuyFields)
  | sell (f : PumpSwapSellFields)
  | buyExactQuoteIn (f : PumpSwapBuyExactFields)
  | other
deriving DecidableEq

structure PumpSwapInput where
  metadata : TxMeta
  data : PumpSwapInstruction
  accounts : Option PumpSwapAccounts

/-- `TradeExtractor::extract_pumpswap_buy_event`. -/
def extract_pumpswap_buy_event (event : PumpSwapBuyEventFields) :
    Option TradeEvent :=
  some
    { timestamp := event.timestamp
      mint := event.pool
      direction := TradeDirection.Buy
      sol_amount := (event.quote_amount_in : ℚ) / 1000000000
      token_amount := (event.base_amount_out : ℚ)
      token_decimals := 6
      user_account := event.user
      source_program := "PumpSwap"
      is_bot := false
      is_dca := false }

/-- `TradeExtractor::extract_pumpswap_sell_event`. -/
def extract_pumpswap_sell_event (event : PumpSwapSellEventFields) :
    Option TradeEvent :=
  some
    { timestamp := event.timestamp
      mint := event.pool
      direction := TradeDirection.Sell
      sol_amount := (event.quote_amount_out : ℚ) / 1000000000
      token_amount := (event.base_amount_in : ℚ)
      token_decimals := 6
      user_account := event.user
      source_program := "PumpSwap"
      is_bot := false
      is_dca := false }

/-- `TradeExtractor::extract_pumpswap_buy`. -/
def extract_pumpswap_buy (accounts : PumpSwapAccounts)
    (instruction : PumpSwapBuyFields) (metadata : TxMeta) :
    Option TradeEvent :=
  let timestamp := metadata.block_time.getD 0
  let sol_amount := (compute_sol_delta_from_metadata metadata
    accounts.user).getD ((instruction.max_quote_amount_in : ℚ) / 1000000000)
  some
    { timestamp := timestamp
      mint := accounts.base_mint
      direction := TradeDirection.Buy
      sol_amount := sol_amount
      token_amount := (instruction.base_amount_out : ℚ)
      token_decimals := 6
      user_account := accounts.user
      source_program := "PumpSwap"
      is_bot := false
      is_dca := false }

/-- `TradeExtractor::extract_pumpswap_sell`. -/
def extract_pumpswap_sell (accounts : PumpSwapAccounts)
    (instruction : PumpSwapSellFields) (metadata : TxMeta) :
    Option TradeEvent :=
  let timestamp := metadata.block_time.getD 0
  let sol_amount := (compute_sol_delta_from_metadata metadata
    accounts.user).getD ((instruction.min_quote_amount_out : ℚ) / 1000000000)
  some
    { timestamp := timestamp
      mint := accounts.base_mint
      direction := TradeDirection.Sell
      sol_amount := sol_amount
      token_amount := (instruction.base_amount_in : ℚ)
      token_decimals := 6
      user_account := accounts.user
      source_program := "PumpSwap"
      is_bot := false
      is_dca := false }

/-- `TradeExtractor::extract_pumpswap_buy_exact_quote_in`. -/
def extract_pumpswap_buy_exact_quote_in (accounts : PumpSwapAccounts)
    (instruction : PumpSwapBuyExactFields) (metadata : TxMeta) :
    Option TradeEvent :=
  let timestamp := metadata.block_time.getD 0
  let sol_amount := (compute_sol_delta_from_metadata metadata
    accounts.user).getD ((instruction.spendable_quote_in : ℚ) / 1000000000)
  some
    { timestamp := timestamp
      mint := accounts.base_mint
      direction := TradeDirection.Buy
      sol_amount := sol_amount
      token_amount := (instruction.min_base_amount_out : ℚ)
      token_decimals := 6
      user_account := accounts.user
      source_program := "PumpSwap"
      is_bot := false
      is_dca := false }

/-- `TradeExtractor::extract_from_pumpswap`. -/
def extract_from_pumpswap (input : PumpSwapInput) : Option TradeEvent :=
  match input.data with
  | PumpSwapInstruction.buyEvent e => extract_pumpswap_buy_event e
  | PumpSwapInstruction.sellEvent e => extract_pumpswap_sell_event e
  | PumpSwapInstruction.buy f =>
    input.accounts.bind (fun a => extract_pumpswap_buy a f input.metadata)
  | PumpSwapInstruction.sell f =>
    input.accounts.bind (fun a => extract_pumpswap_sell a f input.metadata)
  | PumpSwapInstruction.buyExactQuoteIn f =>
    input.accounts.bind
      (fun a => extract_pumpswap_buy_exact_quote_in a f input.metadata)
  | PumpSwapInstruction.other => none

structure MoonshotFields where
  token_amount : Nat
  collateral_amount : Nat
deriving DecidableEq

structure MoonshotAccounts where
  mint : String
  sender : String
deriving DecidableEq

inductive MoonshotInstruction where
  | buy (f : MoonshotFields)
  | sell (f : MoonshotFields)
  | other
deriving DecidableEq

structure MoonshotInput where
  block_time : Option Int
  data : MoonshotInstruction
  accounts : Option MoonshotAccounts

/-- `TradeExtractor::extract_moonshot_buy` (note the source divides
`data.token_amount` by 10⁹ for `sol_amount` and uses `collateral_amount`
as the token amount). -/
def extract_moonshot_buy (accounts : MoonshotAccounts)
    (instruction : MoonshotFields) (timestamp : Int) : Option TradeEvent :=
  some
    { timestamp := timestamp
      mint := accounts.mint
      direction := TradeDirection.Buy
      sol_amount := (instruction.token_amount : ℚ) / 1000000000
      token_amount := (instruction.collateral_amount : ℚ)
      token_decimals := 6
      user_account := accounts.sender
      source_program := "Moonshot"
      is_bot := false
      is_dca := false }

/-- `TradeExtractor::extract_moonshot_sell`. -/
def extract_moonshot_sell (accounts : MoonshotAccounts)
    (instruction : MoonshotFields) (timestamp : Int) : Option TradeEvent :=
  some
    { timestamp := timestamp
      mint := accounts.mint
      direction := TradeDirection.Sell
      sol_amount := (instruction.collateral_amount : ℚ) / 1000000000
      token_amount := (instruction.token_amount : ℚ)
      token_decimals := 6
      user_account := accounts.sender
      source_program := "Moonshot"
      is_bot := false
      is_dca := false }

/-- `TradeExtractor::extract_from_moonshot`. -/
def extract_from_moonshot (input : MoonshotInput) : Option TradeEvent :=
  let timestamp := input.block_time.getD 0
  match input.data with
  | MoonshotInstruction.buy b =>
    input.accounts.bind (fun a => extract_moonshot_buy a b timestamp)
  | MoonshotInstruction.sell s =>
    input.accounts.bind (fun a => extract_moonshot_sell a s timestamp)
  | MoonshotInstruction.other => none

/-- `TradeExtractor::extract_from_bonkswap` (placeholder: always `None`). -/
def extract_from_bonkswap {α : Type} (_input : α) : Option TradeEvent :=
  none

/-- `WriteRequest` from `db.rs`. -/
inductive WriteRequest where
  | metrics (mint : String) (metrics : RollingMetrics)
  | trade (event : TradeEvent)
  | signal (signal : Signal)
deriving DecidableEq

/-- The state of the bounded tokio mpsc write channel (`capacity` 1000 in
`main.rs`). -/
structure WriterChannel where
  buffer : List WriteRequest
  capacity : Nat
  closed : Bool
deriving DecidableEq

/-- The observable outcome of one send attempt on the write channel. -/
inductive SendOutcome where
  | enqueued (c : WriterChannel)
  | errorClosed
  | errorFull
  | waitsForCapacity
deriving DecidableEq

/-- tokio `mpsc::Sender::try_send` semantics: an immediate error when the
channel is full or closed (the request is dropped), otherwise enqueue. -/
def mpscTrySend (c : WriterChannel) (r : WriteRequest) : SendOutcome :=
  if c.closed then SendOutcome.errorClosed
  else if c.capacity ≤ c.buffer.length then SendOutcome.errorFull
  else SendOutcome.enqueued { c with buffer := c.buffer ++ [r] }

/-- tokio `mpsc::Sender::send(..).await` semantics: it returns an error
only when the channel is closed; on a full open channel it suspends until
capacity frees up and never drops the request. -/
def mpscSendAwait (c : WriterChannel) (r : WriteRequest) : SendOutcome :=
  if c.closed then SendOutcome.errorClosed
  else if c.capacity ≤ c.buffer.length then SendOutcome.waitsForCapacity
  else SendOutcome.enqueued { c with buffer := c.buffer ++ [r] }

/-- The dispatcher's enqueue of a write request in
`NetSolFlowProcessor::process`: the source calls
`self.writer.send(...).await` (the awaiting send), for both the
`MetricsUpsert` and the `TradeAppend` request. -/
def processorEnqueue (c : WriterChannel) (r : WriteRequest) : SendOutcome :=
  mpscSendAwait c r

/-- The capacity-1000 write queue of `main.rs`, filled to capacity. -/
def fullWriteQueue : WriterChannel :=
  ⟨List.replicate 1000 (WriteRequest.trade jupBuyTrade), 1000, false⟩

set_option maxRecDepth 100000 in
/-- C3: the dispatcher's enqueue is NOT the claimed non-blocking send.  On
a full open queue `send(...).await` suspends, waiting for capacity; it does
not return an error and drop the request (that is `try_send`, which the
source does not use). -/
theorem claim_C3 :
    processorEnqueue fullWriteQueue (WriteRequest.trade jupBuyTrade) =
      SendOutcome.waitsForCapacity ∧
    processorEnqueue fullWriteQueue (WriteRequest.trade jupBuyTrade) ≠
      SendOutcome.errorFull ∧
    mpscTrySend fullWriteQueue (WriteRequest.trade jupBuyTrade) =
      SendOutcome.errorFull := by
  refine ⟨?_, ?_, ?_⟩ <;> decide

/-- A JupiterDCA fill buying a token with SOL, used to exhibit the
adapter's wall-clock dependence. -/
def c2Fill : FilledEvent := ⟨SOL_MINT, "TOK", 1000000000, 5, "u"⟩

/-- C2: the JupiterDCA adapter is NOT deterministic in its inputs: it
stamps the emitted event with the ambient wall clock
(`chrono::Utc::now().timestamp()`), so two invocations on the same
`FilledEvent` at different instants return different `TradeEvent`s. -/
theorem claim_C2 :
    (extract_jupiter_dca_filled_event c2Fill 100).map (fun t => t.timestamp) =
      some 100 ∧
    (extract_jupiter_dca_filled_event c2Fill 200).map (fun t => t.timestamp) =
      some 200 ∧
    extract_jupiter_dca_filled_event c2Fill 100 ≠
      extract_jupiter_dca_filled_event c2Fill 200 := by
  have h100 : (extract_jupiter_dca_filled_event c2Fill 100).map
      (fun t => t.timestamp) = some 100 := rfl
  have h200 : (extract_jupiter_dca_filled_event c2Fill 200).map
      (fun t => t.timestamp) = some 200 := rfl
  refine ⟨h100, h200, ?_⟩
  intro h
  rw [h, h200] at h100
  simp at h100

/-- One instruction delivered to the dispatcher: its transaction signature
and the decoded payload handed to the extractor. -/
structure ProcInput (τ : Type) where
  signature : String
  payload : τ

/-- The dispatcher-owned state: the seen-signature set, the per-mint
rolling states, and the write queue contents (the success path of the two
awaited channel sends; `processorEnqueue` above models the full-queue
behaviour of one send). -/
structure ProcState where
  seen_signatures : List String
  rolling_states : List (String × TokenRollingState)
  write_queue : List WriteRequest

/-- Lookup of a mint's rolling state in the dispatcher's map. -/
def lookupState (m : String) :
    List (String × TokenRollingState) → Option TokenRollingState
  | [] => none
  | (k, v) :: rest => if k = m then some v else lookupState m rest

/-- Store a mint's rolling state back into the dispatcher's map. -/
def setState (m : String) (st : TokenRollingState) :
    List (String × TokenRollingState) → List (String × TokenRollingState)
  | [] => [(m, st)]
  | (k, v) :: rest =>
    if k = m then (k, st) :: rest else (k, v) :: setState m st rest

/-- `NetSolFlowProcessor::process` from `processor.rs`: skip duplicate
signatures, run the extractor, and on `Some(trade_event)` get-or-create the
mint's rolling state, `add_trade`, `evict_old_trades(event.timestamp)`,
snapshot metrics and enqueue the `Metrics` and `Trade` write requests (the
gross balance-delta logging and `verify_metrics` warnings have no state
effect and are omitted). -/
def processStep {τ : Type} (extractor : τ → Option TradeEvent)
    (ps : ProcState) (input : ProcInput τ) : ProcState :=
  if input.signature ∈ ps.seen_signatures then ps
  else
    let ps1 : ProcState :=
      { ps with seen_signatures := input.signature :: ps.seen_signatures }
    match extractor input.payload with
    | none => ps1
    | some trade_event =>
      let mint := trade_event.mint
      let st0 := (lookupState mint ps1.rolling_states).getD
        (TokenRollingState.new mint)
      let st1 := (st0.add_trade trade_event).evict_old_trades
        trade_event.timestamp
      let metrics := st1.compute_rolling_metrics
      { ps1 with
          rolling_states := setState mint st1 ps1.rolling_states
          write_queue := ps1.write_queue ++
            [WriteRequest.metrics mint metrics,
              WriteRequest.trade trade_event] }

/-- An Unknown-direction trade event (no shipped adapter produces one). -/
def unknownTrade : TradeEvent :=
  ⟨100, "tok", TradeDirection.Unknown, 2, 5, 6, "u", "PumpSwap", false, false⟩

/-- C9 counterexample: the dispatcher performs no direction check.  If the
extractor yields an Unknown-direction `TradeEvent` (the extractor is a
plain function parameter of `NetSolFlowProcessor`), the dispatcher ingests
it: the rolling-state map changes and both write requests are enqueued,
contrary to the claimed discard. -/
theorem claim_C9_cex :
    (processStep (fun _ : Unit => some unknownTrade) ⟨[], [], []⟩
        ⟨"sig", ()⟩).write_queue.length = 2 ∧
    (processStep (fun _ : Unit => some unknownTrade) ⟨[], [], []⟩
        ⟨"sig", ()⟩).rolling_states.length = 1 ∧
    ((lookupState "tok" (processStep (fun _ : Unit => some unknownTrade)
        ⟨[], [], []⟩ ⟨"sig", ()⟩).rolling_states).map
      (fun st => st.trades_300s.length)) = some 1 := by
  refine ⟨?_, ?_, ?_⟩ <;> decide

lemma jupiter_no_unknown (e : FilledEvent) (now : Int) (t : TradeEvent)
    (h : extract_jupiter_dca_filled_event e now = some t) :
    t.direction ≠ TradeDirection.Unknown := by
  unfold extract_jupiter_dca_filled_event at h
  dsimp only at h
  split_ifs at h
  all_goals
    rw [Option.some_inj] at h
  all_goals
    subst h
  all_goals
    simp_all

lemma pumpfun_no_unknown (input : PumpfunInput) (t : TradeEvent)
    (h : extract_from_pumpfun input = some t) :
    t.direction ≠ TradeDirection.Unknown := by
  cases hd : input.data <;>
    cases ha : input.accounts <;>
      simp [extract_from_pumpfun, hd, ha, extract_pumpfun_buy,
        extract_pumpfun_sell] at h <;>
        (subst h; simp)

lemma pumpswap_no_unknown (input : PumpSwapInput) (t : TradeEvent)
    (h : extract_from_pumpswap input = some t) :
    t.direction ≠ TradeDirection.Unknown := by
  cases hd : input.data <;>
    cases ha : input.accounts <;>
      simp [extract_from_pumpswap, hd, ha, extract_pumpswap_buy_event,
        extract_pumpswap_sell_event, extract_pumpswap_buy,
        extract_pumpswap_sell, extract_pumpswap_buy_exact_quote_in] at h <;>
        (subst h; simp)

lemma moonshot_no_unknown (input : MoonshotInput) (t : TradeEvent)
    (h : extract_from_moonshot input = some t) :
    t.direction ≠ TradeDirection.Unknown := by
  cases hd : input.data <;>
    cases ha : input.accounts <;>
      simp [extract_from_moonshot, hd, ha, extract_moonshot_buy,
        extract_moonshot_sell] at h <;>
        (subst h; simp)

/-- C9 (amended): the discard of Unknown-direction events is enforced at
normalization, not by the dispatcher.  No adapter ever yields a
`TradeEvent` with `direction = Unknown` — the JupiterDCA adapter returns
`None` when neither side of the fill is the base mint, every other adapter
sets a literal Buy/Sell, and the BonkSwap placeholder yields nothing — and
when the normalizer yields `None` the dispatcher leaves the rolling states
and the write queue unchanged.  The dispatcher itself performs no
direction check (see the counterexample). -/
theorem claim_C9 :
    (∀ (e : FilledEvent) (now : Int) (t : TradeEvent),
      extract_jupiter_dca_filled_event e now = some t →
        t.direction ≠ TradeDirection.Unknown) ∧
    (∀ (input : PumpfunInput) (t : TradeEvent),
      extract_from_pumpfun input = some t →
        t.direction ≠ TradeDirection.Unknown) ∧
    (∀ (input : PumpSwapInput) (t : TradeEvent),
      extract_from_pumpswap input = some t →
        t.direction ≠ TradeDirection.Unknown) ∧
    (∀ (input : MoonshotInput) (t : TradeEvent),
      extract_from_moonshot input = some t →
        t.direction ≠ TradeDirection.Unknown) ∧
    (∀ (α : Type) (x : α), extract_from_bonkswap x = none) ∧
    (∀ (τ : Type) (extractor : τ → Option TradeEvent) (ps : ProcState)
        (input : ProcInput τ),
      extractor input.payload = none →
        (processStep extractor ps input).rolling_states = ps.rolling_states ∧
        (processStep extractor ps input).write_queue = ps.write_queue) := by
  refine ⟨jupiter_no_unknown, pumpfun_no_unknown, pumpswap_no_unknown,
    moonshot_no_unknown, fun α x => rfl, ?_⟩
  intro τ extractor ps input hnone
  unfold processStep
  split_ifs with hdup
  · exact ⟨rfl, rfl⟩
  · rw [hnone]
    exact ⟨rfl, rfl⟩

/-- Concrete instantiation of `claim_C9`: a `None` from the normalizer
leaves the rolling states and the write queue untouched. -/
theorem claim_C9_witness :
    (processStep (fun _ : Unit => none) ⟨["x"], [], []⟩
        ⟨"sig", ()⟩).rolling_states = [] ∧
    (processStep (fun _ : Unit => none) ⟨["x"], [], []⟩
        ⟨"sig", ()⟩).write_queue = [] :=
  claim_C9.2.2.2.2.2 Unit (fun _ => none) ⟨["x"], [], []⟩ ⟨"sig", ()⟩ rfl

/-- States reachable by any sequence of `add_trade` / `evict_old_trades`
calls from `new` (no shape constraints on the trades). -/
inductive ReachAny : TokenRollingState → Prop where
  | init (mint : String) : ReachAny (TokenRollingState.new mint)
  | add (s : TokenRollingState) (t : TradeEvent) : ReachAny s →
      ReachAny (s.add_trade t)
  | evict (s : TokenRollingState) (now : Int) : ReachAny s →
      ReachAny (s.evict_old_trades now)

/-- The six window sequences are nested as sublists, narrowest to widest. -/
def nestedWindows (s : TokenRollingState) : Prop :=
  s.trades_60s.Sublist s.trades_300s ∧
  s.trades_300s.Sublist s.trades_900s ∧
  s.trades_900s.Sublist s.trades_3600s ∧
  s.trades_3600s.Sublist s.trades_7200s ∧
  s.trades_7200s.Sublist s.trades_14400s

/-- A narrower window's retain keeps a sublist of what a wider window's
retain keeps, given nesting before the call. -/
lemma filter_cutoff_sublist (l₁ l₂ : List TradeEvent) (c₁ c₂ : Int)
    (hls : l₁.Sublist l₂) (hc : c₂ ≤ c₁) :
    (l₁.filter (fun t => decide (c₁ ≤ t.timestamp))).Sublist
      (l₂.filter (fun t => decide (c₂ ≤ t.timestamp))) := by
  refine List.Sublist.trans (List.monotone_filter_right l₁ ?_)
    (hls.filter (fun t => decide (c₂ ≤ t.timestamp)))
  intro a ha
  simp only [decide_eq_true_eq] at ha ⊢
  omega

/-- Nesting of the six windows holds on every reachable state. -/
lemma reach_nested (s : TokenRollingState) (h : ReachAny s) :
    nestedWindows s := by
  induction h with
  | init m =>
    simp [nestedWindows, TokenRollingState.new]
  | add s t hr ih =>
    obtain ⟨h1, h2, h3, h4, h5⟩ := ih
    refine ⟨?_, ?_, ?_, ?_, ?_⟩ <;>
      simp only [add_trade_trades_60s, add_trade_trades_300s,
        add_trade_trades_900s, add_trade_trades_3600s,
        add_trade_trades_7200s, add_trade_trades_14400s]
    · exact h1.append (List.Sublist.refl _)
    · exact h2.append (List.Sublist.refl _)
    · exact h3.append (List.Sublist.refl _)
    · exact h4.append (List.Sublist.refl _)
    · exact h5.append (List.Sublist.refl _)
  | evict s now hr ih =>
    obtain ⟨h1, h2, h3, h4, h5⟩ := ih
    refine ⟨?_, ?_, ?_, ?_, ?_⟩ <;>
      simp only [evict_trades_60s, evict_trades_300s, evict_trades_900s,
        evict_trades_3600s, evict_trades_7200s, evict_trades_14400s]
    · exact filter_cutoff_sublist _ _ _ _ h1 (by omega)
    · exact filter_cutoff_sublist _ _ _ _ h2 (by omega)
    · exact filter_cutoff_sublist _ _ _ _ h3 (by omega)
    · exact filter_cutoff_sublist _ _ _ _ h4 (by omega)
    · exact filter_cutoff_sublist _ _ _ _ h5 (by omega)

/-- C10: after every `add_trade` or `evict_old_trades` call (that is, on
every state reachable from `new` through those calls), the six window
sequences are nested as multisets: each trade occurrence in the W-second
sequence also occurs in every wider window's sequence. -/
theorem claim_C10 (s : TokenRollingState) (h : ReachAny s) :
    (↑s.trades_60s : Multiset TradeEvent) ≤ ↑s.trades_300s ∧
    (↑s.trades_300s : Multiset TradeEvent) ≤ ↑s.trades_900s ∧
    (↑s.trades_900s : Multiset TradeEvent) ≤ ↑s.trades_3600s ∧
    (↑s.trades_3600s : Multiset TradeEvent) ≤ ↑s.trades_7200s ∧
    (↑s.trades_7200s : Multiset TradeEvent) ≤ ↑s.trades_14400s := by
  obtain ⟨h1, h2, h3, h4, h5⟩ := reach_nested s h
  exact ⟨Multiset.coe_le.mpr h1.subperm, Multiset.coe_le.mpr h2.subperm,
    Multiset.coe_le.mpr h3.subperm, Multiset.coe_le.mpr h4.subperm,
    Multiset.coe_le.mpr h5.subperm⟩

/-- Concrete instantiation of `claim_C10` after one add and one evict. -/
theorem claim_C10_witness :
    (↑(((TokenRollingState.new "m").add_trade jupBuyTrade).evict_old_trades
        100).trades_60s : Multiset TradeEvent) ≤
      ↑(((TokenRollingState.new "m").add_trade jupBuyTrade).evict_old_trades
        100).trades_300s ∧
    (↑(((TokenRollingState.new "m").add_trade jupBuyTrade).evict_old_trades
        100).trades_300s : Multiset TradeEvent) ≤
      ↑(((TokenRollingState.new "m").add_trade jupBuyTrade).evict_old_trades
        100).trades_900s ∧
    (↑(((TokenRollingState.new "m").add_trade jupBuyTrade).evict_old_trades
        100).trades_900s : Multiset TradeEvent) ≤
      ↑(((TokenRollingState.new "m").add_trade jupBuyTrade).evict_old_trades
        100).trades_3600s ∧
    (↑(((TokenRollingState.new "m").add_trade jupBuyTrade).evict_old_trades
        100).trades_3600s : Multiset TradeEvent) ≤
      ↑(((TokenRollingState.new "m").add_trade jupBuyTrade).evict_old_trades
        100).trades_7200s ∧
    (↑(((TokenRollingState.new "m").add_trade jupBuyTrade).evict_old_trades
        100).trades_7200s : Multiset TradeEvent) ≤
      ↑(((TokenRollingState.new "m").add_trade jupBuyTrade).evict_old_trades
        100).trades_14400s :=
  claim_C10 _ (ReachAny.evict _ 100 (ReachAny.add _ jupBuyTrade
    (ReachAny.init "m")))

/-- One dispatcher-driven operation on a mint's rolling state. -/
inductive Op where
  | addT (t : TradeEvent)
  | evictT (now : Int)

/-- Run a sequence of operations against a rolling state. -/
def runOps (s : TokenRollingState) : List Op → TokenRollingState
  | [] => s
  | Op.addT t :: rest => runOps (s.add_trade t) rest
  | Op.evictT n :: rest => runOps (s.evict_old_trades n) rest

/-- The number of `add_trade` calls for wallet `w` in an operation list. -/
def wAddsCount (w : String) (ops : List Op) : Nat :=
  ops.countP (fun o =>
    match o with
    | Op.addT t => decide (t.user_account = w)
    | Op.evictT _ => false)

lemma runOps_append (s : TokenRollingState) (l₁ l₂ : List Op) :
    runOps s (l₁ ++ l₂) = runOps (runOps s l₁) l₂ := by
  induction l₁ generalizing s with
  | nil => rfl
  | cons o rest ih =>
    cases o <;> simp [runOps, ih]

lemma lookup_update_self (w : String) (ts : Int)
    (l : List (String × Int × Int)) :
    lookupActivity w (updateActivity w ts l) =
      some ((((lookupActivity w l).map Prod.fst).getD 0) + 1, ts) := by
  induction l with
  | nil => simp [lookupActivity, updateActivity]
  | cons e rest ih =>
    obtain ⟨w', c', t'⟩ := e
    by_cases hw : w' = w
    · subst hw
      simp [lookupActivity, updateActivity]
    · simp [lookupActivity, updateActivity, hw, ih]

lemma lookup_update_other (key w : String) (ts : Int)
    (l : List (String × Int × Int)) (h : key ≠ w) :
    lookupActivity key (updateActivity w ts l) = lookupActivity key l := by
  induction l with
  | nil =>
    rw [updateActivity, lookupActivity, lookupActivity,
      if_neg (fun hc : w = key => h hc.symm)]
    rfl
  | cons e rest ih =>
    obtain ⟨w', c', t'⟩ := e
    by_cases hw : w' = w
    · subst hw
      rw [updateActivity, if_pos rfl, lookupActivity, lookupActivity,
        if_neg (fun hc : w' = key => h hc.symm),
        if_neg (fun hc : w' = key => h hc.symm)]
    · rw [updateActivity, if_neg hw, lookupActivity, lookupActivity]
      by_cases hk : w' = key
      · rw [if_pos hk, if_pos hk]
      · rw [if_neg hk, if_neg hk]
        exact ih

lemma lookup_filter (w : String) (c ts : Int)
    (p : String × Int × Int → Bool) (l : List (String × Int × Int))
    (h : lookupActivity w l = some (c, ts)) (hp : p (w, c, ts) = true) :
    lookupActivity w (l.filter p) = some (c, ts) := by
  induction l with
  | nil => simp [lookupActivity] at h
  | cons e rest ih =>
    obtain ⟨w', c', t'⟩ := e
    by_cases hw : w' = w
    · subst hw
      rw [lookupActivity, if_pos rfl, Option.some_inj] at h
      obtain ⟨rfl, rfl⟩ := Prod.mk.injEq .. ▸ h
      rw [List.filter_cons_of_pos hp, lookupActivity, if_pos rfl]
    · rw [lookupActivity, if_neg hw] at h
      by_cases hpe : p (w', c', t') = true
      · rw [List.filter_cons_of_pos hpe, lookupActivity, if_neg hw]
        exact ih h
      · rw [List.filter_cons_of_neg (by simpa using hpe)]
        exact ih h

lemma lookup_mem (w : String) (c ts : Int) (l : List (String × Int × Int))
    (h : lookupActivity w l = some (c, ts)) : (w, c, ts) ∈ l := by
  induction l with
  | nil => simp [lookupActivity] at h
  | cons e rest ih =>
    obtain ⟨w', c', t'⟩ := e
    by_cases hw : w' = w
    · subst hw
      rw [lookupActivity, if_pos rfl, Option.some_inj] at h
      obtain ⟨rfl, rfl⟩ := Prod.mk.injEq .. ▸ h
      exact List.mem_cons_self _ _
    · rw [lookupActivity, if_neg hw] at h
      exact List.mem_cons_of_mem _ (ih h)

lemma updateActivity_pos (w : String) (ts : Int)
    (l : List (String × Int × Int)) (h : ∀ e ∈ l, 1 ≤ e.2.1) :
    ∀ e ∈ updateActivity w ts l, 1 ≤ e.2.1 := by
  induction l with
  | nil =>
    intro e he
    simp only [updateActivity, List.mem_singleton] at he
    subst he
    norm_num
  | cons x rest ih =>
    obtain ⟨w', c', t'⟩ := x
    intro e he
    by_cases hw : w' = w
    · subst hw
      rw [updateActivity, if_pos rfl] at he
      rcases List.mem_cons.mp he with he | he
      · subst he
        have := h (w', c', t') (List.mem_cons_self _ _)
        simp at this ⊢
        omega
      · exact h e (List.mem_cons_of_mem _ he)
    · rw [updateActivity, if_neg hw] at he
      rcases List.mem_cons.mp he with he | he
      · subst he
        exact h _ (List.mem_cons_self _ _)
      · exact ih (fun x hx => h x (List.mem_cons_of_mem _ hx)) e he

lemma runOps_activity_pos (ops : List Op) :
    ∀ (s : TokenRollingState), (∀ e ∈ s.wallet_activity_60s, 1 ≤ e.2.1) →
      ∀ e ∈ (runOps s ops).wallet_activity_60s, 1 ≤ e.2.1 := by
  induction ops with
  | nil => intro s hs; exact hs
  | cons o rest ih =>
    intro s hs
    cases o with
    | addT t =>
      refine ih (s.add_trade t) ?_
      rw [add_trade_activity]
      exact updateActivity_pos _ _ _ hs
    | evictT n =>
      refine ih (s.evict_old_trades n) ?_
      rw [evict_activity]
      intro e he
      exact hs e (List.mem_of_mem_filter he)

/-- While wallet `w`'s oldest relevant trade time `τ` stays inside the 60s
window of every eviction, the wallet's activity entry survives and its
count grows by at least the number of `w`-adds performed. -/
lemma activity_grows (w : String) (τ : Int) :
    ∀ (ops : List Op) (s : TokenRollingState) (c ts : Int),
      lookupActivity w s.wallet_activity_60s = some (c, ts) →
      τ ≤ ts →
      (∀ t, Op.addT t ∈ ops → t.user_account = w → τ ≤ t.timestamp) →
      (∀ n, Op.evictT n ∈ ops → n ≤ τ + 60) →
      ∃ c' ts',
        lookupActivity w (runOps s ops).wallet_activity_60s = some (c', ts') ∧
        c + (wAddsCount w ops : Int) ≤ c' ∧ τ ≤ ts' := by
  intro ops
  induction ops with
  | nil =>
    intro s c ts h hτ _ _
    exact ⟨c, ts, h, by simp [wAddsCount, runOps], hτ⟩
  | cons o rest ih =>
    intro s c ts h hτ hadds hevicts
    cases o with
    | addT t =>
      by_cases hwt : t.user_account = w
      · have hτt : τ ≤ t.timestamp :=
          hadds t (List.mem_cons_self _ _) hwt
        have hlook : lookupActivity w
            ((s.add_trade t).wallet_activity_60s) =
            some (c + 1, t.timestamp) := by
          rw [add_trade_activity, hwt, lookup_update_self, h]
          rfl
        obtain ⟨c', ts', h1, h2, h3⟩ := ih (s.add_trade t) (c + 1)
          t.timestamp hlook hτt
          (fun u hu hw => hadds u (List.mem_cons_of_mem _ hu) hw)
          (fun n hn => hevicts n (List.mem_cons_of_mem _ hn))
        refine ⟨c', ts', h1, ?_, h3⟩
        have hcnt : wAddsCount w (Op.addT t :: rest) =
            wAddsCount w rest + 1 := by
          simp [wAddsCount, List.countP_cons, hwt]
        rw [hcnt]
        push_cast
        omega
      · have hlook : lookupActivity w
            ((s.add_trade t).wallet_activity_60s) = some (c, ts) := by
          rw [add_trade_activity,
            lookup_update_other w t.user_account _ _
              (fun hc => hwt hc.symm)]
          exact h
        obtain ⟨c', ts', h1, h2, h3⟩ := ih (s.add_trade t) c ts hlook hτ
          (fun u hu hw => hadds u (List.mem_cons_of_mem _ hu) hw)
          (fun n hn => hevicts n (List.mem_cons_of_mem _ hn))
        refine ⟨c', ts', h1, ?_, h3⟩
        have hcnt : wAddsCount w (Op.addT t :: rest) = wAddsCount w rest := by
          simp [wAddsCount, List.countP_cons, hwt]
        rw [hcnt]
        exact h2
    | evictT n =>
      have hn : n ≤ τ + 60 := hevicts n (List.mem_cons_self _ _)
      have hlook : lookupActivity w
          ((s.evict_old_trades n).wallet_activity_60s) = some (c, ts) := by
        rw [evict_activity]
        refine lookup_filter w c ts _ _ h ?_
        simp only [decide_eq_true_eq]
        omega
      obtain ⟨c', ts', h1, h2, h3⟩ := ih (s.evict_old_trades n) c ts hlook hτ
        (fun u hu hw => hadds u (List.mem_cons_of_mem _ hu) hw)
        (fun m hm => hevicts m (List.mem_cons_of_mem _ hm))
      refine ⟨c', ts', h1, ?_, h3⟩
      have hcnt : wAddsCount w (Op.evictT n :: rest) = wAddsCount w rest := by
        simp [wAddsCount, List.countP_cons]
      rw [hcnt]
      exact h2

/-- `add_trade` stores the incoming trade flagged as a bot whenever the
wallet already has at least two counted trades. -/
lemma storedTrade_flag (s : TokenRollingState) (t : TradeEvent)
    (h : 2 ≤ s.activityCount t.user_account) :
    (s.storedTrade t).is_bot = true := by
  unfold TokenRollingState.storedTrade botTradeThreshold
  rw [if_pos (by omega)]

/-- A Buy by wallet "w" at the given time (for the C6 scenarios). -/
def wTrade (ts : Int) : TradeEvent :=
  ⟨ts, "m", TradeDirection.Buy, 1, 0, 6, "w", "PumpSwap", false, false⟩

/-- The C6 counterexample trace: wallet "w" issues three trades inside a
60-second window (timestamps 100, 110, 120), then an out-of-order trade at
timestamp 30, then one eviction at `now = 100` (eviction times trivially
non-decreasing). -/
def c6Ops : List Op :=
  [Op.addT (wTrade 100), Op.addT (wTrade 110), Op.addT (wTrade 120),
    Op.addT (wTrade 30), Op.evictT 100]

/-- C6 counterexample: after `c6Ops` the three trades issued within a 60s
sliding window (span 20s) all remain in the 60s sequence (the third one
stored with `is_bot = true`), yet the wallet's next trade (timestamp 125)
is stored with `is_bot = false`: the eviction at `now = 100` removed the
wallet's activity entry because its most recent trade had the out-of-order
timestamp 30 (older than `now − 60`), resetting the online bot counter
while the three trades were still inside the window. -/
theorem claim_C6_cex :
    wTrade 100 ∈ (runOps (TokenRollingState.new "m") c6Ops).trades_60s ∧
    wTrade 110 ∈ (runOps (TokenRollingState.new "m") c6Ops).trades_60s ∧
    ({ wTrade 120 with is_bot := true } : TradeEvent) ∈
      (runOps (TokenRollingState.new "m") c6Ops).trades_60s ∧
    ((runOps (TokenRollingState.new "m") c6Ops).storedTrade
      (wTrade 125)).is_bot = false := by
  refine ⟨?_, ?_, ?_, ?_⟩ <;> decide

/-- C6 (amended): over any operation sequence in which, after a wallet's
trade at time τ, (i) every further trade of that wallet carries timestamp
≥ τ, (ii) the wallet issues at least two further trades before the trade
under consideration (three in total), and (iii) every eviction uses `now ≤
τ + 60` (so the first of the three trades — and with (i) the wallet's
activity entry — remains inside the 60s window), the wallet's next trade
is stored in the rolling sequences with `is_bot = true`. -/
theorem claim_C6 (m : String) (p1 p2 : List Op) (t1 t : TradeEvent)
    (w : String)
    (hw1 : t1.user_account = w)
    (hw : t.user_account = w)
    (hthree : 2 ≤ wAddsCount w p2)
    (hadds : ∀ u, Op.addT u ∈ p2 → u.user_account = w →
      t1.timestamp ≤ u.timestamp)
    (hevicts : ∀ n, Op.evictT n ∈ p2 → n ≤ t1.timestamp + 60) :
    ((runOps (TokenRollingState.new m)
        (p1 ++ Op.addT t1 :: p2)).storedTrade t).is_bot = true ∧
    (runOps (TokenRollingState.new m)
        (p1 ++ Op.addT t1 :: p2)).storedTrade t ∈
      ((runOps (TokenRollingState.new m)
        (p1 ++ Op.addT t1 :: p2)).add_trade t).trades_60s := by
  have hrun : runOps (TokenRollingState.new m) (p1 ++ Op.addT t1 :: p2) =
      runOps (((runOps (TokenRollingState.new m) p1).add_trade t1)) p2 := by
    rw [runOps_append]
    rfl
  set sPre := runOps (TokenRollingState.new m) p1 with hsPre
  have hpos : ∀ e ∈ sPre.wallet_activity_60s, 1 ≤ e.2.1 := by
    rw [hsPre]
    exact runOps_activity_pos p1 (TokenRollingState.new m)
      (by simp [TokenRollingState.new]) 
  have hc0 : 0 ≤ sPre.activityCount w := by
    unfold TokenRollingState.activityCount
    cases hl : lookupActivity w sPre.wallet_activity_60s with
    | none => simp
    | some pair =>
      obtain ⟨cc, tt⟩ := pair
      have := hpos (w, cc, tt) (lookup_mem w cc tt _ hl)
      simp at this ⊢
      omega
  have hentry : lookupActivity w
      ((sPre.add_trade t1).wallet_activity_60s) =
      some (sPre.activityCount w + 1, t1.timestamp) := by
    rw [add_trade_activity, hw1, lookup_update_self]
    rfl
  obtain ⟨c', ts', hlook, hge, hts'⟩ := activity_grows w t1.timestamp p2
    (sPre.add_trade t1) (sPre.activityCount w + 1) t1.timestamp hentry
    le_rfl hadds hevicts
  have hfinal : 2 ≤ (runOps (TokenRollingState.new m)
      (p1 ++ Op.addT t1 :: p2)).activityCount w := by
    rw [hrun]
    unfold TokenRollingState.activityCount
    rw [hlook]
    simp only [Option.map_some', Option.getD_some]
    omega
  constructor
  · apply storedTrade_flag
    rw [hw]
    exact hfinal
  · rw [add_trade_trades_60s]
    exact List.mem_append_right _ (List.mem_singleton_self _)

/-- Two further wallet-"w" trades and one in-window eviction, for the
`claim_C6` witness. -/
def c6wOps : List Op :=
  [Op.addT (wTrade 110), Op.addT (wTrade 120), Op.evictT 130]

/-- Concrete instantiation of `claim_C6`: after trades at 100, 110, 120
and an eviction at 130, the wallet's trade at 140 is stored flagged. -/
theorem claim_C6_witness :
    ((runOps (TokenRollingState.new "m")
        ([] ++ Op.addT (wTrade 100) :: c6wOps)).storedTrade
      (wTrade 140)).is_bot = true ∧
    (runOps (TokenRollingState.new "m")
        ([] ++ Op.addT (wTrade 100) :: c6wOps)).storedTrade (wTrade 140) ∈
      ((runOps (TokenRollingState.new "m")
        ([] ++ Op.addT (wTrade 100) :: c6wOps)).add_trade
        (wTrade 140)).trades_60s :=
  claim_C6 "m" [] c6wOps (wTrade 100) (wTrade 140) "w" rfl rfl
    (by decide)
    (by
      intro u hu hwu
      simp [c6wOps] at hu
      rcases hu with rfl | rfl <;> norm_num [wTrade])
    (by
      intro n hn
      simp [c6wOps] at hn
      subst hn
      norm_num [wTrade])
